import Mathlib

/-!
# python-zstd: the `_zstd` extension module (`src/zstd/_zstd.c`)

A shallow embedding of the wrapper functions `skip_old_frame_header`, `compress`,
`decompress_fixed`, `decompress_stream` and `decompress`, and of the probe table of
`detect_zstd_legacy_format_support`.

libzstd itself is not part of the module: every `ZSTD_*` function the wrapper calls is a
field of the parameter `Codec`.  CPython's allocator is the parameter `Host`.  Each wrapper
function returns, next to its Python-level result, the list of codec calls it made.
-/

namespace Zstd

/-- A buffer of `unsigned char` cells.  A cell is read modulo 256. -/
abbrev Bytes := List Nat

/-! ## Python-level results -/

/-- The exception classes the module raises; `HostSet` stands for the exception CPython has
already set when one of its allocation calls returns `NULL`. -/
inductive ExcClass
  | ValueError
  | OverflowError
  | ZstdError
  | MemoryError
  | HostSet
  deriving DecidableEq

/-- An argument of `PyErr_Format`: `%d`, `%zu` or `%s`. -/
inductive FmtArg
  | int (i : Int)
  | size (n : Nat)
  | str (s : String)
  deriving DecidableEq

/-- A raised exception: its class, the format string handed to `PyErr_Format` /
`PyErr_SetString`, and the format arguments. -/
structure PyErr where
  cls : ExcClass
  fmt : String
  args : List FmtArg
  deriving DecidableEq

/-- What a wrapper function hands back: a `bytes` object, or `NULL` with an exception set. -/
inductive PyResult
  | ok (b : Bytes)
  | raise (e : PyErr)
  deriving DecidableEq

/-- The exception CPython has already set when `PyBytes_FromStringAndSize` or
`_PyBytes_Resize` returns `NULL`. -/
def allocError : PyErr := ⟨.HostSet, "", []⟩

/-- The exception set by `PyErr_NoMemory()` (line 280). -/
def noMemory : PyErr := ⟨.MemoryError, "", []⟩

/-- The least value of a C `int` (32 bits). -/
def INT_MIN : Int := -2147483648

/-- The greatest value of a C `int` (32 bits). -/
def INT_MAX : Int := 2147483647

/-- The exception CPython has already set when `PyArg_ParseTupleAndKeywords` (line 184)
cannot store the given level in the C `int` of format `i`. -/
def parseOverflow : PyErr := ⟨.OverflowError, "", []⟩

/-! ## The codec (libzstd) and the host (CPython), as parameters -/

/-- Modelled from the spec: `DeclaredSize` is `Known(u64)`, `Unknown` or `Invalid`; the
header `zstd.h` (not in the repository) carries it in one `unsigned long long`, with
`ZSTD_CONTENTSIZE_UNKNOWN` defined as `(0ULL - 1)`. -/
def ZSTD_CONTENTSIZE_UNKNOWN : Nat := 2 ^ 64 - 1

/-- Modelled from the spec: the `Invalid` value of `DeclaredSize`; `zstd.h` defines
`ZSTD_CONTENTSIZE_ERROR` as `(0ULL - 2)`. -/
def ZSTD_CONTENTSIZE_ERROR : Nat := 2 ^ 64 - 2

/-- Result of a one-shot codec call: the `size_t` return value and the bytes the codec
stored at the start of the destination buffer. -/
structure OneShot where
  code : Nat
  written : Bytes
  deriving DecidableEq

/-- Result of one `ZSTD_decompressStream` call: the `size_t` return value, the decoder's
new state, the bytes it stored at `obuf.dst + obuf.pos` (so `obuf.pos` advances by their
number), and the new `ibuf.pos`. -/
structure StreamStep (σ : Type) where
  code : Nat
  zds : σ
  written : Bytes
  inPos : Nat

/-- The functions of libzstd the module calls.  `σ` is the state of a `ZSTD_DStream`. -/
structure Codec (σ : Type) where
  /-- The call `ZSTD_getFrameContentSize(src, srcSize)`. -/
  ZSTD_getFrameContentSize : Bytes → Nat
  /-- The call `ZSTD_compressBound(srcSize)`. -/
  ZSTD_compressBound : Nat → Nat
  /-- The call `ZSTD_compress(dst, dstCapacity, src, srcSize, level)`. -/
  ZSTD_compress : Nat → Bytes → Int → OneShot
  /-- The call `ZSTD_decompress(dst, dstCapacity, src, srcSize)`. -/
  ZSTD_decompress : Nat → Bytes → OneShot
  /-- The call `ZSTD_isError(code)`. -/
  ZSTD_isError : Nat → Bool
  /-- The call `ZSTD_getErrorName(code)`. -/
  ZSTD_getErrorName : Nat → String
  /-- The call `ZSTD_createDStream()`; `none` is `NULL`. -/
  ZSTD_createDStream : Option σ
  /-- The call `ZSTD_DStreamOutSize()`. -/
  ZSTD_DStreamOutSize : Nat
  /-- The call `ZSTD_decompressStream(zds, &obuf, &ibuf)`, given `obuf.size`, `obuf.pos`,
  `ibuf.src` (all `ibuf.size` bytes) and `ibuf.pos`. -/
  ZSTD_decompressStream : σ → Nat → Nat → Bytes → Nat → StreamStep σ

/-- The platform and the allocator: the width of `size_t` / `Py_ssize_t`, and whether a
request for `n` bytes can be served. -/
structure Host where
  size_bits : Nat
  alloc : Nat → Bool

/-- The constant `PY_SSIZE_T_MAX`. -/
def Host.PY_SSIZE_T_MAX (h : Host) : Nat := 2 ^ (h.size_bits - 1) - 1

/-- One codec call, as recorded in the call list of an outcome.  A `ZSTD_decompressStream`
call is recorded with the bytes it stored. -/
inductive Call
  | getFrameContentSize (src : Bytes)
  | compressBound (srcSize : Nat)
  | compress (dstCapacity : Nat) (src : Bytes) (level : Int)
  | decompress (dstCapacity : Nat) (src : Bytes)
  | createDStream
  | DStreamOutSize
  | decompressStream (outSize outPos : Nat) (src : Bytes) (inPos : Nat) (written : Bytes)
  | freeDStream
  deriving DecidableEq

/-- A finished wrapper call: the codec calls made, in order, and the Python-level result. -/
structure Outcome where
  calls : List Call
  result : PyResult
  deriving DecidableEq

/-! ## Buffers -/

/-- The call `PyBytes_FromStringAndSize(NULL, n)`: a fresh `n`-byte object (its cells, not yet
written, are shown as `0`), or `NULL` when `n` is not a valid `Py_ssize_t` or the allocator
refuses. -/
def PyBytes_FromStringAndSize (h : Host) (n : Nat) : Option Bytes :=
  if n ≤ h.PY_SSIZE_T_MAX ∧ h.alloc n = true then some (List.replicate n 0) else none

/-- The call `_PyBytes_Resize(&dst, n)`: the first `n` cells are kept, new cells are shown as `0`;
`NULL` when `n` is not a valid `Py_ssize_t` or the allocator refuses. -/
def PyBytes_Resize (h : Host) (dst : Bytes) (n : Nat) : Option Bytes :=
  if n ≤ h.PY_SSIZE_T_MAX ∧ h.alloc n = true then
    some (dst.take n ++ List.replicate (n - dst.length) 0)
  else none

/-- The codec stores `w` into the buffer `dst` from offset `pos` on.  The buffer keeps its
size: cells past its end do not exist. -/
def writeAt (dst : Bytes) (pos : Nat) (w : Bytes) : Bytes :=
  (dst.take pos ++ w ++ dst.drop (pos + w.length)).take dst.length

/-! ## Compression levels (lines 61-71) -/

def ZSTD_CLEVEL_MIN : Int := -5

def ZSTD_CLEVEL_MAX : Int := 22

def ZSTD_CLEVEL_DEFAULT : Int := 3

/-! ## `skip_old_frame_header` (lines 117-154) -/

/-- The three variables `skip_old_frame_header` receives by pointer: the `src_size` bytes at
`src_ptr`, and `raw_frame_size`. -/
structure SrcState where
  src : Bytes
  raw_frame_size : Nat
  deriving DecidableEq

/-- The cell `p[i]`, an `unsigned char` widened to `unsigned long long`. -/
def byteAt (p : Bytes) (i : Nat) : Nat := p.getD i 0 % 256

/-- The four-byte little-endian integer at the start of `p` (lines 130-134). -/
def old_frame_size (p : Bytes) : Nat :=
  (byteAt p 0 <<< 0) ||| (byteAt p 1 <<< 8) ||| (byteAt p 2 <<< 16) ||| (byteAt p 3 <<< 24)

/-- The call `skip_old_frame_header(&src_ptr, &src_size, &raw_frame_size)`: its value, the
three variables after the call, and the codec calls made. -/
def skip_old_frame_header {σ : Type} (c : Codec σ) (s : SrcState) :
    Bool × SrcState × List Call :=
  if s.src.length < 8 then (false, s, [])
  else if old_frame_size s.src > 0x80000000 then (false, s, [])
  else
    let check_frame_size := c.ZSTD_getFrameContentSize (s.src.drop 4)
    let calls := [Call.getFrameContentSize (s.src.drop 4)]
    if check_frame_size ≠ old_frame_size s.src
        ∧ check_frame_size ≠ ZSTD_CONTENTSIZE_UNKNOWN then
      (false, s, calls)
    else
      (true, ⟨s.src.drop 4, old_frame_size s.src⟩, calls)

/-! ## `compress` (lines 173-228) -/

/-- The call `compress(data, level)` on a contiguous bytes-like `data`, so that
`obj_AsByteBuffer` succeeds, and an integer `level`; `level_arg = none` when the caller gives
no level, so that `level` keeps its initial value `ZSTD_CLEVEL_DEFAULT` (line 181).  The
argument parsing of line 184 stores a given level in a C `int` (format `i`) and fails with
`OverflowError` when it does not fit. -/
def compress {σ : Type} (c : Codec σ) (h : Host) (src : Bytes) (level_arg : Option Int) :
    Outcome :=
  let level := level_arg.getD ZSTD_CLEVEL_DEFAULT
  if level < INT_MIN ∨ INT_MAX < level then ⟨[], .raise parseOverflow⟩
  else
  let level := if level = 0 then ZSTD_CLEVEL_DEFAULT else level
  if level < ZSTD_CLEVEL_MIN then
    ⟨[], .raise ⟨.ValueError, "Bad compression level - less than %d: %d",
      [.int ZSTD_CLEVEL_MIN, .int level]⟩⟩
  else if level > ZSTD_CLEVEL_MAX then
    ⟨[], .raise ⟨.ValueError, "Bad compression level - more than %d: %d",
      [.int ZSTD_CLEVEL_MAX, .int level]⟩⟩
  else
    let dst_size := c.ZSTD_compressBound src.length
    match PyBytes_FromStringAndSize h dst_size with
    | none => ⟨[.compressBound src.length], .raise allocError⟩
    | some dst =>
      let r := c.ZSTD_compress dst_size src level
      let calls := [.compressBound src.length, .compress dst_size src level]
      let dst := writeAt dst 0 r.written
      if c.ZSTD_isError r.code = true then
        ⟨calls, .raise ⟨.ZstdError, "Compression error: %s",
          [.str (c.ZSTD_getErrorName r.code)]⟩⟩
      else
        match PyBytes_Resize h dst r.code with
        | none => ⟨calls, .raise allocError⟩
        | some out => ⟨calls, .ok out⟩

/-! ## `decompress_fixed` (lines 230-267) -/

/-- The call `decompress_fixed(src_ptr, src_size, raw_frame_size)`. -/
def decompress_fixed {σ : Type} (c : Codec σ) (h : Host) (src : Bytes)
    (raw_frame_size : Nat) : Outcome :=
  if raw_frame_size > h.PY_SSIZE_T_MAX then
    ⟨[], .raise ⟨.ZstdError, "Decompressed data is too large for a bytes object", []⟩⟩
  else
    let dst_size := raw_frame_size % 2 ^ h.size_bits
    match PyBytes_FromStringAndSize h dst_size with
    | none => ⟨[], .raise allocError⟩
    | some dst =>
      let r := c.ZSTD_decompress dst_size src
      let calls := [Call.decompress dst_size src]
      let dst := writeAt dst 0 r.written
      if c.ZSTD_isError r.code = true then
        ⟨calls, .raise ⟨.ZstdError, "Decompression error: %s",
          [.str (c.ZSTD_getErrorName r.code)]⟩⟩
      else if r.code ≠ dst_size then
        ⟨calls, .raise ⟨.ZstdError,
          "Decompression error: length mismatch (expected %zu, got %zu bytes)",
          [.size dst_size, .size r.code]⟩⟩
      else ⟨calls, .ok dst⟩

/-! ## `decompress_stream` (lines 269-318) -/

/-- The `for (;;)` loop of `decompress_stream` (lines 293-315), from the state
`zds`, `dst`, `dst_size`, `obuf.pos`, `ibuf.pos`; `calls` are the codec calls made so far.
`fuel` bounds the number of passes; `none` means the bound was reached. -/
def decompress_stream_loop {σ : Type} (c : Codec σ) (h : Host) (src : Bytes) :
    Nat → σ → Bytes → Nat → Nat → Nat → List Call → Option Outcome
  | 0, _, _, _, _, _, _ => none
  | fuel + 1, zds, dst, dst_size, opos, ipos, calls =>
    let r := c.ZSTD_decompressStream zds dst_size opos src ipos
    let calls := calls ++ [Call.decompressStream dst_size opos src ipos r.written]
    let dst := writeAt dst opos r.written
    let opos := opos + r.written.length
    let ipos := r.inPos
    if c.ZSTD_isError r.code = true then
      some ⟨calls ++ [.freeDStream], .raise ⟨.ZstdError, "Decompression error: %s",
        [.str (c.ZSTD_getErrorName r.code)]⟩⟩
    else if ipos = src.length then
      match PyBytes_Resize h dst opos with
      | none => some ⟨calls ++ [.freeDStream], .raise allocError⟩
      | some out => some ⟨calls ++ [.freeDStream], .ok out⟩
    else
      let dst_size := (dst_size * 2) % 2 ^ h.size_bits
      match PyBytes_Resize h dst dst_size with
      | none => some ⟨calls ++ [.freeDStream], .raise allocError⟩
      | some dst => decompress_stream_loop c h src fuel r.zds dst dst_size opos ipos calls

/-- The call `decompress_stream(src_ptr, src_size)`; `fuel` bounds the passes of its loop. -/
def decompress_stream {σ : Type} (c : Codec σ) (h : Host) (fuel : Nat) (src : Bytes) :
    Option Outcome :=
  match c.ZSTD_createDStream with
  | none => some ⟨[.createDStream], .raise noMemory⟩
  | some zds =>
    let dst_size := c.ZSTD_DStreamOutSize
    match PyBytes_FromStringAndSize h dst_size with
    | none => some ⟨[.createDStream, .DStreamOutSize, .freeDStream], .raise allocError⟩
    | some dst =>
      decompress_stream_loop c h src fuel zds dst dst_size 0 0 [.createDStream, .DStreamOutSize]

/-! ## `decompress` (lines 327-362) -/

/-- The call `decompress(data)` on a contiguous bytes-like `data`, so that the argument
parsing and `obj_AsByteBuffer` succeed; `fuel` bounds the passes of the streaming loop. -/
def decompress {σ : Type} (c : Codec σ) (h : Host) (fuel : Nat) (data : Bytes) :
    Option Outcome :=
  let s0 : SrcState := ⟨data, c.ZSTD_getFrameContentSize data⟩
  let calls0 := [Call.getFrameContentSize data]
  -- `raw_frame_size == ZSTD_CONTENTSIZE_ERROR && !skip_old_frame_header(...)`:
  -- the second operand is evaluated only when the first holds
  let sk : Bool × SrcState × List Call :=
    if s0.raw_frame_size = ZSTD_CONTENTSIZE_ERROR then skip_old_frame_header c s0
    else (true, s0, [])
  if s0.raw_frame_size = ZSTD_CONTENTSIZE_ERROR ∧ sk.1 = false then
    some ⟨calls0 ++ sk.2.2, .raise ⟨.ZstdError, "Compressed data is invalid", []⟩⟩
  else
    let s := sk.2.1
    if s.raw_frame_size = ZSTD_CONTENTSIZE_UNKNOWN then
      (decompress_stream c h fuel s.src).map
        (fun o => ⟨calls0 ++ sk.2.2 ++ o.calls, o.result⟩)
    else
      let o := decompress_fixed c h s.src s.raw_frame_size
      some ⟨calls0 ++ sk.2.2 ++ o.calls, o.result⟩

/-! ## `detect_zstd_legacy_format_support` (lines 397-421): the probe table -/

/-- The table `legacy_compressions[8][13]` (lines 404-413). -/
def legacy_compressions : List Bytes :=
  [ [0xfd, 0x2f, 0xb5, 0x1e, 0xc0, 0x00, 0x00, 0x00, 0x00, 0x00, 0x00, 0x00, 0x00],
    [0x22, 0xb5, 0x2f, 0xfd, 0xc0, 0x00, 0x00, 0x00, 0x00, 0x00, 0x00, 0x00, 0x00],
    [0x23, 0xb5, 0x2f, 0xfd, 0xc0, 0x00, 0x00, 0x00, 0x00, 0x00, 0x00, 0x00, 0x00],
    [0x24, 0xb5, 0x2f, 0xfd, 0x08, 0xc0, 0x00, 0x00, 0x00, 0x00, 0x00, 0x00, 0x00],
    [0x25, 0xb5, 0x2f, 0xfd, 0x08, 0xc0, 0x00, 0x00, 0x00, 0x00, 0x00, 0x00, 0x00],
    [0x26, 0xb5, 0x2f, 0xfd, 0x07, 0xc0, 0x00, 0x00, 0x00, 0x00, 0x00, 0x00, 0x00],
    [0x27, 0xb5, 0x2f, 0xfd, 0x04, 0x50, 0xea, 0x3b, 0x1d, 0x00, 0x00, 0x00, 0x00],
    [0x28, 0xb5, 0x2f, 0xfd, 0x04, 0x50, 0x01, 0x00, 0x00, 0x99, 0xe9, 0xd8, 0x51] ]

/-- The call `detect_zstd_legacy_format_support()`: the first `i + 1` whose probe the codec
does not reject; `none` is `abort()`. -/
def detect_zstd_legacy_format_support {σ : Type} (c : Codec σ) : Option Nat :=
  (List.range 8).find? (fun i =>
    decide (c.ZSTD_getFrameContentSize (legacy_compressions.getD i []) ≠ ZSTD_CONTENTSIZE_ERROR))
    |>.map (· + 1)

/-! ## A reference codec

A small codec with the interface of libzstd, used to run the wrapper on concrete inputs.
A frame is the magic number `28 B5 2F FD`, a descriptor byte (`1`: the content size follows
in one byte, `0`: no content size is recorded), and blocks.  A block is a header byte
`2 * len + last` followed by `len` stored bytes.  The descriptor `2` makes a run frame: one
byte and a four-byte little-endian count, standing for that byte repeated; the one-shot
functions read it, the block-by-block incremental decoder `streamLoop` does not.  Error codes are the highest values of
`size_t`, as in libzstd. -/

namespace Toy

def magic : Bytes := [0x28, 0xb5, 0x2f, 0xfd]

def errGeneric : Nat := 2 ^ 64 - 1

def errPrefixUnknown : Nat := 2 ^ 64 - 10

def errCorruption : Nat := 2 ^ 64 - 20

def errDstSizeTooSmall : Nat := 2 ^ 64 - 70

def errSrcSizeWrong : Nat := 2 ^ 64 - 72

def isError (code : Nat) : Bool := decide (2 ^ 64 - 120 < code)

def getErrorName (code : Nat) : String :=
  if code = errPrefixUnknown then "Unknown frame descriptor"
  else if code = errCorruption then "Corrupted block detected"
  else if code = errDstSizeTooSmall then "Destination buffer is too small"
  else if code = errSrcSizeWrong then "Src size is incorrect"
  else if isError code = true then "Error (generic)"
  else "No error detected"

/-- Size of the frame header at the start of `src`, when there is one. -/
def headerSize (src : Bytes) : Option Nat :=
  if src.take 4 = magic then
    match src.drop 4 with
    | 0 :: _ => some 5
    | 1 :: _ :: _ => some 6
    | _ => none
  else none

def getFrameContentSize (src : Bytes) : Nat :=
  if src.take 4 = magic then
    match src.drop 4 with
    | 0 :: _ => ZSTD_CONTENTSIZE_UNKNOWN
    | 1 :: n :: _ => n % 256
    | 2 :: _ :: n0 :: n1 :: n2 :: n3 :: _ => old_frame_size [n0, n1, n2, n3]
    | _ => ZSTD_CONTENTSIZE_ERROR
  else ZSTD_CONTENTSIZE_ERROR

/-- The content of a sequence of blocks ending with a block marked last. -/
def decodeBlocks : Nat → Bytes → Option Bytes
  | 0, _ => none
  | _, [] => none
  | fuel + 1, hdr :: rest =>
    let len := hdr % 256 / 2
    if rest.length < len then none
    else if hdr % 2 = 1 then some (rest.take len)
    else (decodeBlocks fuel (rest.drop len)).map (fun tl => rest.take len ++ tl)

/-- The content of a frame. -/
def decode (src : Bytes) : Option Bytes :=
  if src.take 4 = magic then
    match src.drop 4 with
    | 2 :: b :: n0 :: n1 :: n2 :: n3 :: _ =>
      some (List.replicate (old_frame_size [n0, n1, n2, n3]) (b % 256))
    | _ =>
      match headerSize src with
      | none => none
      | some k => decodeBlocks src.length (src.drop k)
  else none

def compressBound (srcSize : Nat) : Nat := srcSize + 7

/-- One frame with the content size recorded and the input stored in one block. -/
def compress (dstCapacity : Nat) (src : Bytes) (_level : Int) : OneShot :=
  if 127 < src.length then ⟨errSrcSizeWrong, []⟩
  else
    let frame := magic ++ [1, src.length] ++ [2 * src.length + 1] ++ src
    if dstCapacity < frame.length then ⟨errDstSizeTooSmall, []⟩ else ⟨frame.length, frame⟩

def decompress (dstCapacity : Nat) (src : Bytes) : OneShot :=
  match decode src with
  | none => ⟨if src.take 4 = magic then errCorruption else errPrefixUnknown, []⟩
  | some content =>
    if dstCapacity < content.length then ⟨errDstSizeTooSmall, []⟩
    else ⟨content.length, content⟩

/-- State of the incremental decoder: whether the frame header has been read, the bytes
decoded but not yet handed out, and whether the last block has been read. -/
structure DStream where
  started : Bool
  pending : Bytes
  lastBlock : Bool
  deriving DecidableEq

/-- The work loop of the incremental decoder: hand out pending bytes while there is room;
once nothing is pending, read the header or the next block from the input.  It stops when
the room is used up with bytes still pending (return value: their number), when the frame is
complete and handed out (return value 0), or when the input holds no complete block. -/
def streamLoop (src : Bytes) (outSize : Nat) :
    Nat → DStream → Nat → Nat → Bytes → StreamStep DStream
  | 0, z, _, ipos, w => ⟨errGeneric, z, w, ipos⟩
  | fuel + 1, z, opos, ipos, w =>
    if z.pending ≠ [] then
      let k := min (outSize - opos) z.pending.length
      let z1 : DStream := { z with pending := z.pending.drop k }
      if k < z.pending.length then ⟨z1.pending.length, z1, w ++ z.pending.take k, ipos⟩
      else streamLoop src outSize fuel z1 (opos + k) ipos (w ++ z.pending.take k)
    else if z.lastBlock = true then ⟨0, z, w, ipos⟩
    else if z.started = false then
      match headerSize (src.drop ipos) with
      | none => ⟨errPrefixUnknown, z, w, ipos⟩
      | some k => streamLoop src outSize fuel { z with started := true } opos (ipos + k) w
    else
      match src.drop ipos with
      | [] => ⟨1, z, w, ipos⟩
      | hdr :: rest =>
        let len := hdr % 256 / 2
        if rest.length < len then ⟨len - rest.length, z, w, ipos⟩
        else
          streamLoop src outSize fuel
            { z with pending := rest.take len, lastBlock := decide (hdr % 2 = 1) }
            opos (ipos + 1 + len) w

def decompressStream (z : DStream) (outSize outPos : Nat) (src : Bytes) (inPos : Nat) :
    StreamStep DStream :=
  streamLoop src outSize (2 * src.length + 4) z outPos inPos []

/-- The reference codec; its default output segment has 4 bytes. -/
def codec : Codec DStream where
  ZSTD_getFrameContentSize := getFrameContentSize
  ZSTD_compressBound := compressBound
  ZSTD_compress := compress
  ZSTD_decompress := decompress
  ZSTD_isError := isError
  ZSTD_getErrorName := getErrorName
  ZSTD_createDStream := some ⟨false, [], false⟩
  ZSTD_DStreamOutSize := 4
  ZSTD_decompressStream := decompressStream

/-- The reference codec with support for format 0.1 switched on, as far as the inspection
goes: a buffer that starts with the magic number `FD 2F B5 1E` of the first probe of
`legacy_compressions` is taken for a frame of unknown size. -/
def legacyCodec : Codec DStream :=
  { codec with
    ZSTD_getFrameContentSize := fun src =>
      if src.take 4 = [0xfd, 0x2f, 0xb5, 0x1e] then ZSTD_CONTENTSIZE_UNKNOWN
      else getFrameContentSize src }

/-- A 64-bit host whose allocator never refuses. -/
def host : Host := ⟨64, fun _ => true⟩

/-- A run frame that records the content size `0x1EB52FFD` and holds that many zero bytes. -/
def frameRun : Bytes := magic ++ [2, 0, 0xfd, 0x2f, 0xb5, 0x1e]

/-- A frame that records no content size and holds `1 .. 16` in four blocks of four bytes. -/
def frame16 : Bytes :=
  magic ++ [0] ++ [8, 1, 2, 3, 4] ++ [8, 5, 6, 7, 8] ++ [8, 9, 10, 11, 12] ++ [9, 13, 14, 15, 16]

/-- The outcome of `decompress_stream` on `frame16`: three passes. -/
def outcome16 : Outcome :=
  ⟨[.createDStream, .DStreamOutSize,
      .decompressStream 4 0 frame16 0 [1, 2, 3, 4],
      .decompressStream 8 4 frame16 15 [5, 6, 7, 8],
      .decompressStream 16 8 frame16 20 [9, 10, 11, 12, 13, 14, 15, 16],
      .freeDStream],
    .ok [1, 2, 3, 4, 5, 6, 7, 8, 9, 10, 11, 12, 13, 14, 15, 16]⟩

end Toy

/-! ## Reading a call list -/

/-- Whether a call is a frame-size inspection. -/
def Call.isInspection : Call → Bool
  | .getFrameContentSize _ => true
  | _ => false

/-- Whether a call belongs to the streaming decoder. -/
def Call.isStreaming : Call → Bool
  | .createDStream => true
  | .DStreamOutSize => true
  | .decompressStream _ _ _ _ _ => true
  | .freeDStream => true
  | _ => false

/-- The bytes stored by the successive `ZSTD_decompressStream` calls of a call list. -/
def streamWrites : List Call → List Bytes
  | [] => []
  | .decompressStream _ _ _ _ w :: cs => w :: streamWrites cs
  | _ :: cs => streamWrites cs

/-- The `obuf.pos` handed to the successive `ZSTD_decompressStream` calls of a call list. -/
def streamOffsets : List Call → List Nat
  | [] => []
  | .decompressStream _ p _ _ _ :: cs => p :: streamOffsets cs
  | _ :: cs => streamOffsets cs

/-- The offsets at which chunks land when they are stored one after the other from `p`. -/
def runningOffsets : List Bytes → Nat → List Nat
  | [], _ => []
  | w :: ws, p => p :: runningOffsets ws (p + w.length)

/-- The exception of line 350. -/
def invalidInput : PyErr := ⟨.ZstdError, "Compressed data is invalid", []⟩

/-- The bytes of `b"not a frame"`. -/
def notAFrame : Bytes := [110, 111, 116, 32, 97, 32, 102, 114, 97, 109, 101]

/-- The four-byte little-endian encoding of `L`, the legacy length prefix. -/
def LE32 (L : Nat) : Bytes := [L % 256, L / 2 ^ 8 % 256, L / 2 ^ 16 % 256, L / 2 ^ 24 % 256]

/-- Modelled from the spec: the magic number of the standard frame format, which `zstd.h`
(not in the repository) defines as `ZSTD_MAGICNUMBER 0xFD2FB528`, in memory order.  These are
also the first four bytes of the eighth probe of `legacy_compressions`. -/
def modern_magic : Bytes := [0x28, 0xb5, 0x2f, 0xfd]

/-- The magic numbers the module knows: the first four bytes of each probe, and the modern
magic number. -/
def magic_numbers : List Bytes := legacy_compressions.map (List.take 4) ++ [modern_magic]

/-- The codec keeps to the output segment it is given: a `ZSTD_decompressStream` call stores
no more bytes than lie between `obuf.pos` and `obuf.size`. -/
def StreamWritesFit {σ : Type} (c : Codec σ) : Prop :=
  ∀ zds outSize outPos src inPos,
    (c.ZSTD_decompressStream zds outSize outPos src inPos).written.length ≤ outSize - outPos

/-! ## Buffer lemmas -/

theorem PY_SSIZE_T_MAX_lt (h : Host) : h.PY_SSIZE_T_MAX < 2 ^ h.size_bits := by
  unfold Host.PY_SSIZE_T_MAX
  have h1 : 0 < 2 ^ (h.size_bits - 1) := Nat.pow_pos (by decide)
  have h2 : 2 ^ (h.size_bits - 1) ≤ 2 ^ h.size_bits :=
    Nat.pow_le_pow_right (by decide) (Nat.sub_le _ _)
  omega

theorem writeAt_length (dst : Bytes) (pos : Nat) (w : Bytes) :
    (writeAt dst pos w).length = dst.length := by
  simp only [writeAt, List.length_take, List.length_append, List.length_drop]
  omega

theorem PyBytes_Resize_length (h : Host) (dst out : Bytes) (n : Nat)
    (hr : PyBytes_Resize h dst n = some out) : out.length = n := by
  unfold PyBytes_Resize at hr
  split at hr
  · cases hr
    simp only [List.length_append, List.length_take, List.length_replicate]
    omega
  · cases hr

theorem PyBytes_FromStringAndSize_length (h : Host) (dst : Bytes) (n : Nat)
    (hr : PyBytes_FromStringAndSize h n = some dst) : dst.length = n := by
  unfold PyBytes_FromStringAndSize at hr
  split at hr
  · cases hr
    simp
  · cases hr

/-- Storing `w` at the start of a fresh buffer that has room for it, then keeping the first
`w.length` cells, gives `w`. -/
theorem take_writeAt_zero (n : Nat) (w : Bytes) (hw : w.length ≤ n) :
    (writeAt (List.replicate n 0) 0 w).take w.length = w := by
  simp only [writeAt, List.take_zero, List.nil_append, Nat.zero_add, List.length_replicate,
    List.take_take]
  rw [Nat.min_eq_left hw, List.take_append_of_le_length (le_refl _), List.take_length]

theorem writeAt_zero_full (w : Bytes) :
    writeAt (List.replicate w.length 0) 0 w = w := by
  simp [writeAt]

/-! ## `compress`: the level -/

/-- The level `compress` works with once lines 188-189 have run. -/
theorem compress_of_valid_level {σ : Type} (c : Codec σ) (h : Host) (d : Bytes)
    (level_arg : Option Int) (level : Int)
    (hl : (if level_arg.getD ZSTD_CLEVEL_DEFAULT = 0 then ZSTD_CLEVEL_DEFAULT
      else level_arg.getD ZSTD_CLEVEL_DEFAULT) = level)
    (hmin : ZSTD_CLEVEL_MIN ≤ level) (hmax : level ≤ ZSTD_CLEVEL_MAX) :
    compress c h d level_arg =
      match PyBytes_FromStringAndSize h (c.ZSTD_compressBound d.length) with
      | none => ⟨[.compressBound d.length], .raise allocError⟩
      | some dst =>
        if c.ZSTD_isError (c.ZSTD_compress (c.ZSTD_compressBound d.length) d level).code = true
        then
          ⟨[.compressBound d.length, .compress (c.ZSTD_compressBound d.length) d level],
            .raise ⟨.ZstdError, "Compression error: %s",
              [.str (c.ZSTD_getErrorName
                (c.ZSTD_compress (c.ZSTD_compressBound d.length) d level).code)]⟩⟩
        else
          match PyBytes_Resize h
            (writeAt dst 0 (c.ZSTD_compress (c.ZSTD_compressBound d.length) d level).written)
            (c.ZSTD_compress (c.ZSTD_compressBound d.length) d level).code with
          | none =>
            ⟨[.compressBound d.length, .compress (c.ZSTD_compressBound d.length) d level],
              .raise allocError⟩
          | some out =>
            ⟨[.compressBound d.length, .compress (c.ZSTD_compressBound d.length) d level],
              .ok out⟩ := by
  have hrange : ¬ (level_arg.getD ZSTD_CLEVEL_DEFAULT < INT_MIN
      ∨ INT_MAX < level_arg.getD ZSTD_CLEVEL_DEFAULT) := by
    unfold ZSTD_CLEVEL_MIN at hmin
    unfold ZSTD_CLEVEL_MAX at hmax
    unfold INT_MIN INT_MAX
    split at hl <;> omega
  unfold compress
  simp only [hl, if_neg hrange]
  rw [if_neg (not_lt.mpr hmin), if_neg (not_lt.mpr hmax)]

/-- No path of `compress` past the level checks raises a `ValueError`. -/
theorem compress_of_valid_level_not_ValueError {σ : Type} (c : Codec σ) (h : Host) (d : Bytes)
    (level_arg : Option Int) (level : Int)
    (hl : (if level_arg.getD ZSTD_CLEVEL_DEFAULT = 0 then ZSTD_CLEVEL_DEFAULT
      else level_arg.getD ZSTD_CLEVEL_DEFAULT) = level)
    (hmin : ZSTD_CLEVEL_MIN ≤ level) (hmax : level ≤ ZSTD_CLEVEL_MAX) (e : PyErr)
    (he : (compress c h d level_arg).result = .raise e) : e.cls ≠ .ValueError := by
  rw [compress_of_valid_level c h d level_arg level hl hmin hmax] at he
  split at he
  · cases he; simp [allocError]
  · split at he
    · cases he; simp
    · split at he
      · cases he; simp [allocError]
      · cases he

/-- C6, as amended.  Level validation: for every level that fits a C `int`,
`compress(d, level)` raises the level `ValueError` exactly when `level` is not 0 and lies
below `ZSTD_CLEVEL_MIN` or above `ZSTD_CLEVEL_MAX`; below the minimum the message is the
"less than" one with arguments `ZSTD_CLEVEL_MIN` and `level`, above the maximum the "more
than" one with `ZSTD_CLEVEL_MAX` and `level`; the two messages differ; `ZSTD_CLEVEL_MIN - 1`
and `ZSTD_CLEVEL_MAX + 1` are both refused; and no codec call is made in either case. -/
theorem compress_level_validation {σ : Type} (c : Codec σ) (h : Host) (d : Bytes)
    (level : Int) (hint : INT_MIN ≤ level ∧ level ≤ INT_MAX) :
    ((∃ e, (compress c h d (some level)).result = .raise e ∧ e.cls = .ValueError)
        ↔ (level ≠ 0 ∧ (level < ZSTD_CLEVEL_MIN ∨ level > ZSTD_CLEVEL_MAX)))
    ∧ (level ≠ 0 → level < ZSTD_CLEVEL_MIN →
        compress c h d (some level) =
          ⟨[], .raise ⟨.ValueError, "Bad compression level - less than %d: %d",
            [.int ZSTD_CLEVEL_MIN, .int level]⟩⟩)
    ∧ (level > ZSTD_CLEVEL_MAX →
        compress c h d (some level) =
          ⟨[], .raise ⟨.ValueError, "Bad compression level - more than %d: %d",
            [.int ZSTD_CLEVEL_MAX, .int level]⟩⟩)
    ∧ "Bad compression level - less than %d: %d" ≠ "Bad compression level - more than %d: %d"
    ∧ compress c h d (some (ZSTD_CLEVEL_MIN - 1)) =
        ⟨[], .raise ⟨.ValueError, "Bad compression level - less than %d: %d",
          [.int ZSTD_CLEVEL_MIN, .int (ZSTD_CLEVEL_MIN - 1)]⟩⟩
    ∧ compress c h d (some (ZSTD_CLEVEL_MAX + 1)) =
        ⟨[], .raise ⟨.ValueError, "Bad compression level - more than %d: %d",
          [.int ZSTD_CLEVEL_MAX, .int (ZSTD_CLEVEL_MAX + 1)]⟩⟩ := by
  have hlow : ∀ l : Int, INT_MIN ≤ l ∧ l ≤ INT_MAX → l ≠ 0 → l < ZSTD_CLEVEL_MIN →
      compress c h d (some l) =
        ⟨[], .raise ⟨.ValueError, "Bad compression level - less than %d: %d",
          [.int ZSTD_CLEVEL_MIN, .int l]⟩⟩ := by
    intro l hr h0 hlt
    have hrange : ¬ (l < INT_MIN ∨ INT_MAX < l) := by omega
    unfold compress
    simp only [Option.getD_some, if_neg hrange, if_neg h0, if_pos hlt]
  have hhigh : ∀ l : Int, INT_MIN ≤ l ∧ l ≤ INT_MAX → l > ZSTD_CLEVEL_MAX →
      compress c h d (some l) =
        ⟨[], .raise ⟨.ValueError, "Bad compression level - more than %d: %d",
          [.int ZSTD_CLEVEL_MAX, .int l]⟩⟩ := by
    intro l hr hgt
    have hrange : ¬ (l < INT_MIN ∨ INT_MAX < l) := by omega
    have h0 : l ≠ 0 := by unfold ZSTD_CLEVEL_MAX at hgt; omega
    have hnlt : ¬ l < ZSTD_CLEVEL_MIN := by
      unfold ZSTD_CLEVEL_MAX at hgt; unfold ZSTD_CLEVEL_MIN; omega
    unfold compress
    simp only [Option.getD_some, if_neg hrange, if_neg h0, if_neg hnlt, if_pos hgt]
  refine ⟨⟨?_, ?_⟩, hlow level hint, hhigh level hint, by decide, ?_, ?_⟩
  · rintro ⟨e, he, hcls⟩
    by_contra hcon
    by_cases h0 : level = 0
    · subst h0
      exact compress_of_valid_level_not_ValueError c h d (some 0) ZSTD_CLEVEL_DEFAULT
        (by simp) (by decide) (by decide) e he hcls
    · have hmin : ZSTD_CLEVEL_MIN ≤ level := by
        by_contra hx
        exact hcon ⟨h0, Or.inl (not_le.mp hx)⟩
      have hmax : level ≤ ZSTD_CLEVEL_MAX := by
        by_contra hx
        exact hcon ⟨h0, Or.inr (not_le.mp hx)⟩
      exact compress_of_valid_level_not_ValueError c h d (some level) level
        (by simp [h0]) hmin hmax e he hcls
  · rintro ⟨h0, hlt | hgt⟩
    · exact ⟨_, by rw [hlow level hint h0 hlt], rfl⟩
    · exact ⟨_, by rw [hhigh level hint hgt], rfl⟩
  · exact hlow _ (by decide) (by decide) (by decide)
  · exact hhigh _ (by decide) (by decide)

/-- C6, as amended, at the levels -6 and 23 of the reference codec. -/
theorem compress_level_validation_witness :
    ((INT_MIN ≤ -6 ∧ (-6 : Int) ≤ INT_MAX) ∧ (-6 : Int) ≠ 0 ∧ (-6 : Int) < ZSTD_CLEVEL_MIN
      ∧ compress Toy.codec Toy.host [1, 2, 3] (some (-6)) =
          ⟨[], .raise ⟨.ValueError, "Bad compression level - less than %d: %d",
            [.int ZSTD_CLEVEL_MIN, .int (-6)]⟩⟩)
    ∧ ((INT_MIN ≤ 23 ∧ (23 : Int) ≤ INT_MAX) ∧ (23 : Int) > ZSTD_CLEVEL_MAX
      ∧ compress Toy.codec Toy.host [1, 2, 3] (some 23) =
          ⟨[], .raise ⟨.ValueError, "Bad compression level - more than %d: %d",
            [.int ZSTD_CLEVEL_MAX, .int 23]⟩⟩) :=
  ⟨⟨by decide, by decide, by decide,
      (compress_level_validation Toy.codec Toy.host [1, 2, 3] (-6) (by decide)).2.1
        (by decide) (by decide)⟩,
    ⟨by decide, by decide,
      (compress_level_validation Toy.codec Toy.host [1, 2, 3] 23 (by decide)).2.2.1
        (by decide)⟩⟩

/-- C6 fails at the level `2 ^ 31`, which is an integer, is not 0 and lies above
`ZSTD_CLEVEL_MAX`: it does not fit the C `int` of line 184, the argument parsing fails with
`OverflowError`, and the level checks of lines 188-199 with their `ValueError` are never
reached. -/
theorem compress_level_validation_counterexample :
    (2147483648 : Int) ≠ 0
    ∧ (2147483648 : Int) > ZSTD_CLEVEL_MAX
    ∧ compress Toy.codec Toy.host [1, 2, 3] (some 2147483648)
        = ⟨[], .raise ⟨.OverflowError, "", []⟩⟩
    ∧ compress Toy.codec Toy.host [1, 2, 3] (some 2147483648)
        ≠ ⟨[], .raise ⟨.ValueError, "Bad compression level - more than %d: %d",
            [.int ZSTD_CLEVEL_MAX, .int 2147483648]⟩⟩ :=
  ⟨by decide, by decide, rfl, by decide⟩

/-- C7. Level 0 means the default: `compress(d, 0)`, `compress(d, ZSTD_CLEVEL_DEFAULT)` and
`compress(d)` have the same outcome (same codec calls, same bytes or same exception), and on
success the object returned has as many bytes as `ZSTD_compress` reported, whatever the bound
`ZSTD_compressBound` used for the allocation. -/
theorem compress_level_zero_is_default {σ : Type} (c : Codec σ) (h : Host) (d : Bytes) :
    compress c h d (some 0) = compress c h d (some ZSTD_CLEVEL_DEFAULT)
    ∧ compress c h d (some 0) = compress c h d none
    ∧ ∀ out, (compress c h d (some 0)).result = .ok out →
        out.length =
          (c.ZSTD_compress (c.ZSTD_compressBound d.length) d ZSTD_CLEVEL_DEFAULT).code := by
  have h0 := compress_of_valid_level c h d (some 0) ZSTD_CLEVEL_DEFAULT (by simp) (by decide)
    (by decide)
  refine ⟨?_, ?_, ?_⟩
  · rw [h0, compress_of_valid_level c h d (some ZSTD_CLEVEL_DEFAULT) ZSTD_CLEVEL_DEFAULT
      (by simp [ZSTD_CLEVEL_DEFAULT]) (by decide) (by decide)]
  · rw [h0, compress_of_valid_level c h d none ZSTD_CLEVEL_DEFAULT
      (by simp [ZSTD_CLEVEL_DEFAULT]) (by decide) (by decide)]
  · intro out hout
    rw [compress_of_valid_level c h d (some 0) ZSTD_CLEVEL_DEFAULT (by simp) (by decide)
      (by decide)] at hout
    split at hout
    · cases hout
    · split at hout
      · cases hout
      · split at hout
        · cases hout
        · rename_i out2 hres
          cases hout
          exact PyBytes_Resize_length h _ _ _ hres

/-- C7 on the input `1 2 3` of the reference codec: the bound is 10 bytes, the frame has 10
bytes, and `compress` returns these 10 bytes. -/
theorem compress_level_zero_is_default_witness :
    (compress Toy.codec Toy.host [1, 2, 3] (some 0)).result
        = .ok [0x28, 0xb5, 0x2f, 0xfd, 1, 3, 7, 1, 2, 3]
    ∧ ([0x28, 0xb5, 0x2f, 0xfd, 1, 3, 7, 1, 2, 3] : Bytes).length =
        (Toy.codec.ZSTD_compress (Toy.codec.ZSTD_compressBound ([1, 2, 3] : Bytes).length)
          [1, 2, 3] ZSTD_CLEVEL_DEFAULT).code :=
  ⟨rfl, (compress_level_zero_is_default Toy.codec Toy.host [1, 2, 3]).2.2 _ rfl⟩

/-! ## `decompress_fixed` -/

/-- The body of `decompress_fixed` once the size check and the allocation have passed. -/
theorem decompress_fixed_of_alloc {σ : Type} (c : Codec σ) (h : Host) (src : Bytes) (N : Nat)
    (hN : N ≤ h.PY_SSIZE_T_MAX) (hmem : h.alloc N = true) :
    decompress_fixed c h src N =
      if c.ZSTD_isError (c.ZSTD_decompress N src).code = true then
        ⟨[.decompress N src], .raise ⟨.ZstdError, "Decompression error: %s",
          [.str (c.ZSTD_getErrorName (c.ZSTD_decompress N src).code)]⟩⟩
      else if (c.ZSTD_decompress N src).code ≠ N then
        ⟨[.decompress N src], .raise ⟨.ZstdError,
          "Decompression error: length mismatch (expected %zu, got %zu bytes)",
          [.size N, .size (c.ZSTD_decompress N src).code]⟩⟩
      else ⟨[.decompress N src], .ok (writeAt (List.replicate N 0) 0
        (c.ZSTD_decompress N src).written)⟩ := by
  have hmod : N % 2 ^ h.size_bits = N :=
    Nat.mod_eq_of_lt (lt_of_le_of_lt hN (PY_SSIZE_T_MAX_lt h))
  unfold decompress_fixed
  rw [if_neg (not_lt.mpr hN)]
  simp only [hmod, PyBytes_FromStringAndSize, hN, hmem, and_self, if_true]

/-- A successful `decompress_fixed` returns `raw_frame_size` bytes, and the codec reported
that many without error. -/
theorem decompress_fixed_ok {σ : Type} (c : Codec σ) (h : Host) (src : Bytes) (N : Nat)
    (out : Bytes) (hout : (decompress_fixed c h src N).result = .ok out) :
    out.length = N ∧ (c.ZSTD_decompress N src).code = N
      ∧ c.ZSTD_isError (c.ZSTD_decompress N src).code = false
      ∧ out = writeAt (List.replicate N 0) 0 (c.ZSTD_decompress N src).written := by
  by_cases hN : N ≤ h.PY_SSIZE_T_MAX
  · by_cases hmem : h.alloc N = true
    · rw [decompress_fixed_of_alloc c h src N hN hmem] at hout
      split at hout
      · cases hout
      · rename_i herr
        split at hout
        · cases hout
        · rename_i hne
          cases hout
          refine ⟨?_, not_not.mp hne, by simpa using herr, rfl⟩
          rw [writeAt_length, List.length_replicate]
    · have hmod : N % 2 ^ h.size_bits = N :=
        Nat.mod_eq_of_lt (lt_of_le_of_lt hN (PY_SSIZE_T_MAX_lt h))
      unfold decompress_fixed at hout
      rw [if_neg (not_lt.mpr hN)] at hout
      simp [hmod, PyBytes_FromStringAndSize, hmem] at hout
  · unfold decompress_fixed at hout
    rw [if_pos (not_le.mp hN)] at hout
    cases hout

/-- The calls of `decompress_fixed`: none, or one `ZSTD_decompress`. -/
theorem decompress_fixed_calls {σ : Type} (c : Codec σ) (h : Host) (src : Bytes) (N : Nat) :
    (decompress_fixed c h src N).calls = []
      ∨ (decompress_fixed c h src N).calls = [.decompress (N % 2 ^ h.size_bits) src] := by
  unfold decompress_fixed
  split
  · exact Or.inl rfl
  · dsimp only
    split
    · exact Or.inl rfl
    · right
      split
      · rfl
      · split <;> rfl

/-- Every exception of `decompress_fixed` differs from the one of line 350. -/
theorem decompress_fixed_not_invalidInput {σ : Type} (c : Codec σ) (h : Host) (src : Bytes)
    (N : Nat) : (decompress_fixed c h src N).result ≠ .raise invalidInput := by
  unfold decompress_fixed
  split
  · simp only [invalidInput, ne_eq, PyResult.raise.injEq, PyErr.mk.injEq, not_and]
    intro _ hf
    exact absurd hf (by decide)
  · dsimp only
    split
    · simp [invalidInput, allocError]
    · split
      · simp only [invalidInput, ne_eq, PyResult.raise.injEq, PyErr.mk.injEq, not_and]
        intro _ hf
        exact absurd hf (by decide)
      · split
        · simp only [invalidInput, ne_eq, PyResult.raise.injEq, PyErr.mk.injEq, not_and]
          intro _ hf
          exact absurd hf (by decide)
        · simp

/-- C5, as amended.  Length-mismatch detection: for a declared size `N` of at most
`PY_SSIZE_T_MAX` whose buffer the host allocates, when `ZSTD_decompress`, handed the `N`-byte
buffer, reports without error a count that is `N + k` or `N - k` with `k > 0`,
`decompress_fixed` raises the length-mismatch exception with arguments `N` and that count,
whose message is not the one of a codec failure; no bytes are returned.  Whenever
`decompress_fixed` returns bytes, there are exactly `N` of them and the codec reported
`N`. -/
theorem decompress_fixed_length_mismatch {σ : Type} (c : Codec σ) (h : Host) (payload : Bytes)
    (N : Nat) :
    (∀ k : Nat, 0 < k → N ≤ h.PY_SSIZE_T_MAX → h.alloc N = true →
        c.ZSTD_isError (c.ZSTD_decompress N payload).code = false →
        ((c.ZSTD_decompress N payload).code = N + k
          ∨ (c.ZSTD_decompress N payload).code + k = N) →
        decompress_fixed c h payload N =
          ⟨[.decompress N payload], .raise ⟨.ZstdError,
            "Decompression error: length mismatch (expected %zu, got %zu bytes)",
            [.size N, .size (c.ZSTD_decompress N payload).code]⟩⟩)
    ∧ "Decompression error: length mismatch (expected %zu, got %zu bytes)"
        ≠ "Decompression error: %s"
    ∧ (∀ out, (decompress_fixed c h payload N).result = .ok out →
        out.length = N ∧ (c.ZSTD_decompress N payload).code = N) := by
  refine ⟨?_, by decide, ?_⟩
  · intro k hk hN hmem hok hlen
    have hne : (c.ZSTD_decompress N payload).code ≠ N := by omega
    rw [decompress_fixed_of_alloc c h payload N hN hmem]
    simp [hok, hne]
  · intro out hout
    have := decompress_fixed_ok c h payload N out hout
    exact ⟨this.1, this.2.1⟩

/-- C5, as amended, on a frame of the reference codec that holds 3 bytes, decoded with
declared size 5. -/
theorem decompress_fixed_length_mismatch_witness :
    0 < 2 ∧ 5 ≤ Toy.host.PY_SSIZE_T_MAX ∧ Toy.host.alloc 5 = true
    ∧ Toy.codec.ZSTD_isError
        (Toy.codec.ZSTD_decompress 5 [0x28, 0xb5, 0x2f, 0xfd, 0, 7, 1, 2, 3]).code = false
    ∧ (Toy.codec.ZSTD_decompress 5 [0x28, 0xb5, 0x2f, 0xfd, 0, 7, 1, 2, 3]).code + 2 = 5
    ∧ decompress_fixed Toy.codec Toy.host [0x28, 0xb5, 0x2f, 0xfd, 0, 7, 1, 2, 3] 5 =
        ⟨[.decompress 5 [0x28, 0xb5, 0x2f, 0xfd, 0, 7, 1, 2, 3]], .raise ⟨.ZstdError,
          "Decompression error: length mismatch (expected %zu, got %zu bytes)",
          [.size 5, .size 3]⟩⟩ :=
  ⟨by decide, Nat.le_of_ble_eq_true rfl, rfl, rfl, rfl,
    (decompress_fixed_length_mismatch Toy.codec Toy.host
      [0x28, 0xb5, 0x2f, 0xfd, 0, 7, 1, 2, 3] 5).1 2 (by decide) (Nat.le_of_ble_eq_true rfl) rfl rfl
      (Or.inr rfl)⟩

/-! ## `skip_old_frame_header` and the dispatch of `decompress` -/

/-- The legacy check fails exactly in the three ways of lines 126, 140 and 146. -/
theorem skip_old_frame_header_false_iff {σ : Type} (c : Codec σ) (s : SrcState) :
    (skip_old_frame_header c s).1 = false ↔
      (s.src.length < 8 ∨ old_frame_size s.src > 0x80000000
        ∨ (c.ZSTD_getFrameContentSize (s.src.drop 4) ≠ old_frame_size s.src
          ∧ c.ZSTD_getFrameContentSize (s.src.drop 4) ≠ ZSTD_CONTENTSIZE_UNKNOWN)) := by
  unfold skip_old_frame_header
  by_cases h1 : s.src.length < 8
  · simp [h1]
  · by_cases h2 : old_frame_size s.src > 0x80000000
    · simp [h1, h2]
    · by_cases h3 : c.ZSTD_getFrameContentSize (s.src.drop 4) ≠ old_frame_size s.src
          ∧ c.ZSTD_getFrameContentSize (s.src.drop 4) ≠ ZSTD_CONTENTSIZE_UNKNOWN
      · simp only [if_neg h1, if_neg h2, if_pos h3, true_iff]
        exact Or.inr (Or.inr h3)
      · simp only [if_neg h1, if_neg h2, if_neg h3, Bool.true_eq_false, false_iff]
        rintro (h | h | h)
        · exact h1 h
        · exact h2 h
        · exact h3 h

/-- A failed legacy check leaves the three variables as they were. -/
theorem skip_old_frame_header_reject {σ : Type} (c : Codec σ) (s : SrcState)
    (hr : (skip_old_frame_header c s).1 = false) : (skip_old_frame_header c s).2.1 = s := by
  unfold skip_old_frame_header at hr ⊢
  split
  · rfl
  · split
    · rfl
    · dsimp only at hr ⊢
      split
      · rfl
      · rename_i h1 h2 h3
        rw [if_neg h1, if_neg h2] at hr
        simp only [if_neg h3] at hr
        cases hr

/-- A passed legacy check skips four bytes and sets the declared size to the prefix. -/
theorem skip_old_frame_header_accept {σ : Type} (c : Codec σ) (s : SrcState)
    (hlen : 8 ≤ s.src.length) (hL : old_frame_size s.src ≤ 0x80000000)
    (hin : c.ZSTD_getFrameContentSize (s.src.drop 4) = old_frame_size s.src
      ∨ c.ZSTD_getFrameContentSize (s.src.drop 4) = ZSTD_CONTENTSIZE_UNKNOWN) :
    skip_old_frame_header c s =
      (true, ⟨s.src.drop 4, old_frame_size s.src⟩,
        [Call.getFrameContentSize (s.src.drop 4)]) := by
  unfold skip_old_frame_header
  rw [if_neg (not_lt.mpr hlen), if_neg (not_lt.mpr hL)]
  dsimp only
  rw [if_neg]
  intro hcon
  rcases hin with h | h
  · exact hcon.1 h
  · exact hcon.2 h

/-- The legacy check only inspects. -/
theorem skip_old_frame_header_calls {σ : Type} (c : Codec σ) (s : SrcState) :
    (skip_old_frame_header c s).2.2 = []
      ∨ (skip_old_frame_header c s).2.2 = [Call.getFrameContentSize (s.src.drop 4)] := by
  unfold skip_old_frame_header
  split
  · exact Or.inl rfl
  · split
    · exact Or.inl rfl
    · dsimp only
      split <;> exact Or.inr rfl

/-- The outcome of `decompress` when both the inspection and the legacy check fail. -/
theorem decompress_of_invalid {σ : Type} (c : Codec σ) (h : Host) (fuel : Nat) (data : Bytes)
    (herr : c.ZSTD_getFrameContentSize data = ZSTD_CONTENTSIZE_ERROR)
    (hrej : (skip_old_frame_header c ⟨data, ZSTD_CONTENTSIZE_ERROR⟩).1 = false) :
    decompress c h fuel data =
      some ⟨Call.getFrameContentSize data
          :: (skip_old_frame_header c ⟨data, ZSTD_CONTENTSIZE_ERROR⟩).2.2,
        .raise invalidInput⟩ := by
  unfold decompress
  simp only [herr, if_true, hrej, and_self, invalidInput, List.singleton_append]

/-- The outcome of `decompress` when the inspection fails and the legacy check passes. -/
theorem decompress_of_legacy {σ : Type} (c : Codec σ) (h : Host) (fuel : Nat) (data : Bytes)
    (herr : c.ZSTD_getFrameContentSize data = ZSTD_CONTENTSIZE_ERROR)
    (hlen : 8 ≤ data.length) (hL : old_frame_size data ≤ 0x80000000)
    (hin : c.ZSTD_getFrameContentSize (data.drop 4) = old_frame_size data
      ∨ c.ZSTD_getFrameContentSize (data.drop 4) = ZSTD_CONTENTSIZE_UNKNOWN) :
    decompress c h fuel data =
      some ⟨[Call.getFrameContentSize data, Call.getFrameContentSize (data.drop 4)]
          ++ (decompress_fixed c h (data.drop 4) (old_frame_size data)).calls,
        (decompress_fixed c h (data.drop 4) (old_frame_size data)).result⟩ := by
  have hne : old_frame_size data ≠ ZSTD_CONTENTSIZE_UNKNOWN := by
    unfold ZSTD_CONTENTSIZE_UNKNOWN
    omega
  unfold decompress
  simp only [herr, if_true,
    skip_old_frame_header_accept c ⟨data, ZSTD_CONTENTSIZE_ERROR⟩ hlen hL hin,
    Bool.true_eq_false, and_false, if_false, hne, List.singleton_append, List.cons_append,
    List.nil_append]

/-- The outcome of `decompress` when the inspection succeeds. -/
theorem decompress_of_frame {σ : Type} (c : Codec σ) (h : Host) (fuel : Nat) (data : Bytes)
    (hok : c.ZSTD_getFrameContentSize data ≠ ZSTD_CONTENTSIZE_ERROR) :
    decompress c h fuel data =
      if c.ZSTD_getFrameContentSize data = ZSTD_CONTENTSIZE_UNKNOWN then
        (decompress_stream c h fuel data).map
          (fun o => ⟨Call.getFrameContentSize data :: o.calls, o.result⟩)
      else
        some ⟨Call.getFrameContentSize data
            :: (decompress_fixed c h data (c.ZSTD_getFrameContentSize data)).calls,
          (decompress_fixed c h data (c.ZSTD_getFrameContentSize data)).result⟩ := by
  unfold decompress
  simp only [hok, if_false, false_and, List.append_nil, List.singleton_append]

/-! ## `decompress_stream`: exceptions -/

/-- Every exception of the streaming loop differs from the one of line 350. -/
theorem decompress_stream_loop_not_invalidInput {σ : Type} (c : Codec σ) (h : Host)
    (src : Bytes) (fuel : Nat) :
    ∀ (zds : σ) (dst : Bytes) (dst_size opos ipos : Nat) (calls : List Call) (o : Outcome),
      decompress_stream_loop c h src fuel zds dst dst_size opos ipos calls = some o →
      o.result ≠ .raise invalidInput := by
  induction fuel with
  | zero =>
    intro zds dst dst_size opos ipos calls o ho
    simp [decompress_stream_loop] at ho
  | succ n ih =>
    intro zds dst dst_size opos ipos calls o ho
    unfold decompress_stream_loop at ho
    dsimp only at ho
    split at ho
    · cases ho
      simp only [invalidInput, ne_eq, PyResult.raise.injEq, PyErr.mk.injEq, not_and]
      intro _ hf
      exact absurd hf (by decide)
    · split at ho
      · split at ho
        · cases ho; simp [invalidInput, allocError]
        · cases ho; simp
      · split at ho
        · cases ho; simp [invalidInput, allocError]
        · exact ih _ _ _ _ _ _ o ho

/-- Every exception of `decompress_stream` differs from the one of line 350. -/
theorem decompress_stream_not_invalidInput {σ : Type} (c : Codec σ) (h : Host) (fuel : Nat)
    (src : Bytes) (o : Outcome) (ho : decompress_stream c h fuel src = some o) :
    o.result ≠ .raise invalidInput := by
  unfold decompress_stream at ho
  split at ho
  · cases ho; simp [invalidInput, noMemory]
  · dsimp only at ho
    split at ho
    · cases ho; simp [invalidInput, allocError]
    · exact decompress_stream_loop_not_invalidInput c h src fuel _ _ _ _ _ _ o ho

/-- C9. Legacy prefix dispatch: when the inspection of the whole input reports an error and
the legacy check accepts (at least 8 bytes, `L` the little-endian value of the first four,
`L <= 0x80000000`, and the inspection of `bytes[4..]` gives `L` or "unknown"), `decompress`
is `decompress_fixed` on exactly `bytes[4..]` with declared size `L`, preceded by the two
inspections; no call of the streaming decoder is made, also when the inner frame's size is
unknown.  When the legacy check rejects, `src_ptr`, `src_size` and `raw_frame_size` are
unchanged. -/
theorem legacy_prefix_dispatch {σ : Type} (c : Codec σ) (h : Host) (fuel : Nat) (data : Bytes)
    (herr : c.ZSTD_getFrameContentSize data = ZSTD_CONTENTSIZE_ERROR)
    (hlen : 8 ≤ data.length) (hL : old_frame_size data ≤ 0x80000000)
    (hin : c.ZSTD_getFrameContentSize (data.drop 4) = old_frame_size data
      ∨ c.ZSTD_getFrameContentSize (data.drop 4) = ZSTD_CONTENTSIZE_UNKNOWN) :
    decompress c h fuel data =
        some ⟨[Call.getFrameContentSize data, Call.getFrameContentSize (data.drop 4)]
            ++ (decompress_fixed c h (data.drop 4) (old_frame_size data)).calls,
          (decompress_fixed c h (data.drop 4) (old_frame_size data)).result⟩
    ∧ (∀ o, decompress c h fuel data = some o →
        ∀ call ∈ o.calls, call.isStreaming = false)
    ∧ (∀ s : SrcState, (skip_old_frame_header c s).1 = false →
        (skip_old_frame_header c s).2.1 = s) := by
  have hd := decompress_of_legacy c h fuel data herr hlen hL hin
  refine ⟨hd, ?_, fun s hs => skip_old_frame_header_reject c s hs⟩
  intro o ho call hcall
  rw [hd] at ho
  cases ho
  rcases decompress_fixed_calls c h (data.drop 4) (old_frame_size data) with hc | hc
  · rw [hc] at hcall
    simp only [List.append_nil, List.mem_cons, List.mem_singleton, List.not_mem_nil,
      or_false] at hcall
    rcases hcall with rfl | rfl <;> rfl
  · rw [hc] at hcall
    simp only [List.cons_append, List.nil_append, List.mem_cons, List.mem_singleton,
      List.not_mem_nil, or_false] at hcall
    rcases hcall with rfl | rfl | rfl <;> rfl

/-- C9 on the reference codec: the prefix `3 0 0 0` before a frame that records no content
size and holds `1 2 3`. -/
theorem legacy_prefix_dispatch_witness :
    Toy.codec.ZSTD_getFrameContentSize [3, 0, 0, 0, 0x28, 0xb5, 0x2f, 0xfd, 0, 7, 1, 2, 3]
        = ZSTD_CONTENTSIZE_ERROR
    ∧ Toy.codec.ZSTD_getFrameContentSize
        (([3, 0, 0, 0, 0x28, 0xb5, 0x2f, 0xfd, 0, 7, 1, 2, 3] : Bytes).drop 4)
        = ZSTD_CONTENTSIZE_UNKNOWN
    ∧ decompress Toy.codec Toy.host 0 [3, 0, 0, 0, 0x28, 0xb5, 0x2f, 0xfd, 0, 7, 1, 2, 3] =
        some ⟨[.getFrameContentSize [3, 0, 0, 0, 0x28, 0xb5, 0x2f, 0xfd, 0, 7, 1, 2, 3],
            .getFrameContentSize [0x28, 0xb5, 0x2f, 0xfd, 0, 7, 1, 2, 3],
            .decompress 3 [0x28, 0xb5, 0x2f, 0xfd, 0, 7, 1, 2, 3]],
          .ok [1, 2, 3]⟩ :=
  ⟨rfl, rfl,
    (legacy_prefix_dispatch Toy.codec Toy.host 0
      [3, 0, 0, 0, 0x28, 0xb5, 0x2f, 0xfd, 0, 7, 1, 2, 3] rfl (by decide) (by decide)
      (Or.inr rfl)).1⟩

/-- C4. Invalid input rejection: `decompress` raises "Compressed data is invalid" exactly
when the inspection of the whole input reports an error and the legacy check fails, that is,
the input has fewer than 8 bytes, or its first four bytes read as a little-endian length `L`
exceed `0x80000000`, or the inspection of `bytes[4..]` gives neither `L` nor "unknown"; the
only codec calls made are then inspections, so no decoder runs.  `b"not a frame"` has 11
bytes and `L = 0x20746f6e`, so it is such a case once the codec rejects it and does not take
`b"a frame"` for a frame of unknown size or of size `L`. -/
theorem invalid_input_rejection {σ : Type} (c : Codec σ) (h : Host) (fuel : Nat)
    (data : Bytes) :
    ((∃ o, decompress c h fuel data = some o ∧ o.result = .raise invalidInput) ↔
      (c.ZSTD_getFrameContentSize data = ZSTD_CONTENTSIZE_ERROR
        ∧ (data.length < 8 ∨ old_frame_size data > 0x80000000
          ∨ (c.ZSTD_getFrameContentSize (data.drop 4) ≠ old_frame_size data
            ∧ c.ZSTD_getFrameContentSize (data.drop 4) ≠ ZSTD_CONTENTSIZE_UNKNOWN))))
    ∧ (∀ o, decompress c h fuel data = some o → o.result = .raise invalidInput →
        ∀ call ∈ o.calls, call.isInspection = true)
    ∧ (c.ZSTD_getFrameContentSize notAFrame = ZSTD_CONTENTSIZE_ERROR →
        c.ZSTD_getFrameContentSize (notAFrame.drop 4) ≠ old_frame_size notAFrame →
        c.ZSTD_getFrameContentSize (notAFrame.drop 4) ≠ ZSTD_CONTENTSIZE_UNKNOWN →
        decompress c h fuel notAFrame =
          some ⟨[.getFrameContentSize notAFrame, .getFrameContentSize (notAFrame.drop 4)],
            .raise invalidInput⟩) := by
  have key : ∀ o, decompress c h fuel data = some o → o.result = .raise invalidInput →
      c.ZSTD_getFrameContentSize data = ZSTD_CONTENTSIZE_ERROR
        ∧ (skip_old_frame_header c ⟨data, ZSTD_CONTENTSIZE_ERROR⟩).1 = false := by
    intro o ho hres
    by_cases herr : c.ZSTD_getFrameContentSize data = ZSTD_CONTENTSIZE_ERROR
    · refine ⟨herr, ?_⟩
      by_contra hacc
      have hfalse := (skip_old_frame_header_false_iff c ⟨data, ZSTD_CONTENTSIZE_ERROR⟩).not.mp
        hacc
      simp only [not_or, not_lt, not_and, not_not] at hfalse
      obtain ⟨hlen, hL, hin⟩ := hfalse
      have hin2 : c.ZSTD_getFrameContentSize (data.drop 4) = old_frame_size data
          ∨ c.ZSTD_getFrameContentSize (data.drop 4) = ZSTD_CONTENTSIZE_UNKNOWN := by
        by_cases hq : c.ZSTD_getFrameContentSize (data.drop 4) = old_frame_size data
        · exact Or.inl hq
        · exact Or.inr (hin hq)
      rw [decompress_of_legacy c h fuel data herr hlen hL hin2] at ho
      cases ho
      exact decompress_fixed_not_invalidInput c h _ _ hres
    · exfalso
      rw [decompress_of_frame c h fuel data herr] at ho
      split at ho
      · cases hs : decompress_stream c h fuel data with
        | none => rw [hs] at ho; cases ho
        | some o2 =>
          rw [hs] at ho
          cases ho
          exact decompress_stream_not_invalidInput c h fuel data o2 hs hres
      · cases ho
        exact decompress_fixed_not_invalidInput c h _ _ hres
  refine ⟨⟨?_, ?_⟩, ?_, ?_⟩
  · rintro ⟨o, ho, hres⟩
    obtain ⟨herr, hrej⟩ := key o ho hres
    exact ⟨herr, (skip_old_frame_header_false_iff c ⟨data, ZSTD_CONTENTSIZE_ERROR⟩).mp hrej⟩
  · rintro ⟨herr, hcond⟩
    have hrej := (skip_old_frame_header_false_iff c ⟨data, ZSTD_CONTENTSIZE_ERROR⟩).mpr hcond
    exact ⟨_, decompress_of_invalid c h fuel data herr hrej, rfl⟩
  · intro o ho hres call hcall
    obtain ⟨herr, hrej⟩ := key o ho hres
    rw [decompress_of_invalid c h fuel data herr hrej] at ho
    cases ho
    rcases skip_old_frame_header_calls c ⟨data, ZSTD_CONTENTSIZE_ERROR⟩ with hc | hc
    · rw [hc] at hcall
      simp only [List.mem_singleton] at hcall
      subst hcall
      rfl
    · rw [hc] at hcall
      simp only [List.mem_cons, List.mem_singleton, List.not_mem_nil, or_false] at hcall
      rcases hcall with rfl | rfl <;> rfl
  · intro herr h1 h2
    have hrej : (skip_old_frame_header c ⟨notAFrame, ZSTD_CONTENTSIZE_ERROR⟩).1 = false :=
      (skip_old_frame_header_false_iff c ⟨notAFrame, ZSTD_CONTENTSIZE_ERROR⟩).mpr
        (Or.inr (Or.inr ⟨h1, h2⟩))
    rw [decompress_of_invalid c h fuel notAFrame herr hrej]
    have hcalls : (skip_old_frame_header c ⟨notAFrame, ZSTD_CONTENTSIZE_ERROR⟩).2.2
        = [Call.getFrameContentSize (notAFrame.drop 4)] := by
      unfold skip_old_frame_header
      rw [if_neg (by decide), if_neg (by decide)]
      simp only [h1, h2, ne_eq, not_false_eq_true, and_self, if_true]
    rw [hcalls]

/-- C4 on the reference codec, which rejects both `b"not a frame"` and `b"a frame"`. -/
theorem invalid_input_rejection_witness :
    Toy.codec.ZSTD_getFrameContentSize notAFrame = ZSTD_CONTENTSIZE_ERROR
    ∧ Toy.codec.ZSTD_getFrameContentSize (notAFrame.drop 4) ≠ old_frame_size notAFrame
    ∧ Toy.codec.ZSTD_getFrameContentSize (notAFrame.drop 4) ≠ ZSTD_CONTENTSIZE_UNKNOWN
    ∧ decompress Toy.codec Toy.host 0 notAFrame =
        some ⟨[.getFrameContentSize notAFrame,
            .getFrameContentSize [97, 32, 102, 114, 97, 109, 101]],
          .raise ⟨.ZstdError, "Compressed data is invalid", []⟩⟩ :=
  ⟨rfl, by decide, by decide,
    (invalid_input_rejection Toy.codec Toy.host 0 notAFrame).2.2 rfl (by decide) (by decide)⟩

/-! ## The legacy length: arithmetic -/

theorem byteAt_lt (p : Bytes) (i : Nat) : byteAt p i < 256 :=
  Nat.mod_lt _ (by decide)

theorem le_or_right (a b : Nat) : b ≤ a ||| b :=
  Nat.le_of_testBit (by
    intro i hi
    simp [hi])

/-- The legacy length is the sum of its four bytes, weighted by powers of 256. -/
theorem old_frame_size_eq_sum (p : Bytes) :
    old_frame_size p =
      byteAt p 0 + 2 ^ 8 * byteAt p 1 + 2 ^ 16 * byteAt p 2 + 2 ^ 24 * byteAt p 3 := by
  have h0 := byteAt_lt p 0
  have h1 := byteAt_lt p 1
  have h2 := byteAt_lt p 2
  have e1 : byteAt p 0 ||| 2 ^ 8 * byteAt p 1 = 2 ^ 8 * byteAt p 1 + byteAt p 0 := by
    rw [Nat.or_comm]
    exact (Nat.mul_add_lt_is_or (by omega) _).symm
  have e2 : 2 ^ 8 * byteAt p 1 + byteAt p 0 ||| 2 ^ 16 * byteAt p 2
      = 2 ^ 16 * byteAt p 2 + (2 ^ 8 * byteAt p 1 + byteAt p 0) := by
    rw [Nat.or_comm]
    exact (Nat.mul_add_lt_is_or (by omega) _).symm
  have e3 : 2 ^ 16 * byteAt p 2 + (2 ^ 8 * byteAt p 1 + byteAt p 0) ||| 2 ^ 24 * byteAt p 3
      = 2 ^ 24 * byteAt p 3 + (2 ^ 16 * byteAt p 2 + (2 ^ 8 * byteAt p 1 + byteAt p 0)) := by
    rw [Nat.or_comm]
    exact (Nat.mul_add_lt_is_or (by omega) _).symm
  unfold old_frame_size
  simp only [Nat.shiftLeft_eq, Nat.pow_zero, Nat.mul_one]
  rw [Nat.mul_comm (byteAt p 1), Nat.mul_comm (byteAt p 2), Nat.mul_comm (byteAt p 3), e1, e2,
    e3]
  omega

/-- A fourth byte `0xFD` puts the legacy length above the cap. -/
theorem old_frame_size_gt_of_fourth (p : Bytes) (h3 : byteAt p 3 = 0xfd) :
    old_frame_size p > 0x80000000 := by
  rw [old_frame_size_eq_sum, h3]
  omega

/-- The legacy length of a buffer that starts with `LE32 L` is `L`. -/
theorem old_frame_size_LE32 (L : Nat) (f : Bytes) (hL : L < 2 ^ 32) :
    old_frame_size (LE32 L ++ f) = L := by
  rw [old_frame_size_eq_sum]
  simp only [byteAt, LE32, List.cons_append, List.nil_append, List.getD_cons_zero,
    List.getD_cons_succ, Nat.mod_mod]
  omega

/-! ## Magic numbers and the legacy length -/

/-- What the length test of line 140 achieves: the modern magic number and the first four
bytes of the probes of formats 0.2 to 0.8 have fourth byte `0xFD`; read as a little-endian
length such a prefix exceeds `0x80000000`, and `skip_old_frame_header` rejects every input
that begins with it, whatever follows, making no codec call and changing nothing. -/
theorem magic_numbers_rejected {σ : Type} (c : Codec σ) (m rest : Bytes) (raw : Nat)
    (hm : m ∈ (legacy_compressions.drop 1).map (List.take 4) ++ [modern_magic]) :
    byteAt m 3 = 0xfd
    ∧ old_frame_size (m ++ rest) > 0x80000000
    ∧ skip_old_frame_header c ⟨m ++ rest, raw⟩ = (false, ⟨m ++ rest, raw⟩, []) := by
  have hcases : m.length = 4 ∧ byteAt m 3 = 0xfd := by
    simp only [legacy_compressions, modern_magic, List.drop_succ_cons, List.drop_zero,
      List.map_cons, List.map_nil, List.take_succ_cons, List.take_zero, List.cons_append,
      List.nil_append, List.mem_cons, List.mem_singleton, List.not_mem_nil, or_false] at hm
    rcases hm with rfl | rfl | rfl | rfl | rfl | rfl | rfl | rfl <;> exact ⟨rfl, rfl⟩
  obtain ⟨hlen, h3⟩ := hcases
  have h3r : byteAt (m ++ rest) 3 = 0xfd := by
    unfold byteAt at h3 ⊢
    rw [List.getD_append _ _ _ _ (by omega)]
    exact h3
  have hgt := old_frame_size_gt_of_fourth (m ++ rest) h3r
  refine ⟨h3, hgt, ?_⟩
  unfold skip_old_frame_header
  dsimp only
  rw [if_pos hgt]
  split <;> rfl

/-- The length test on the modern magic number followed by four more bytes. -/
theorem magic_numbers_rejected_example :
    modern_magic ∈ (legacy_compressions.drop 1).map (List.take 4) ++ [modern_magic]
    ∧ skip_old_frame_header Toy.codec ⟨modern_magic ++ [0, 7, 1, 2], ZSTD_CONTENTSIZE_ERROR⟩ =
        (false, ⟨modern_magic ++ [0, 7, 1, 2], ZSTD_CONTENTSIZE_ERROR⟩, []) :=
  ⟨by decide,
    (magic_numbers_rejected Toy.codec modern_magic [0, 7, 1, 2] ZSTD_CONTENTSIZE_ERROR
      (by decide)).2.2⟩

/-- C10.  The code breaks the claim, and the comment of lines 136-139, on the magic number of
format 0.1: the first four bytes `FD 2F B5 1E` of the first probe are one of the module's
magic numbers, their fourth byte is `0x1E`, read as a little-endian length they give
`0x1EB52FFD`, which does not exceed `0x80000000`, so the test of line 140 lets them pass, and
`skip_old_frame_header` accepts an input of 13 bytes that begins with them (here followed by
a frame that records no content size) as a legacy length prefix. -/
theorem skip_old_frame_header_accepts_format01_magic :
    [0xfd, 0x2f, 0xb5, 0x1e] ∈ magic_numbers
    ∧ (legacy_compressions.getD 0 []).take 4 = [0xfd, 0x2f, 0xb5, 0x1e]
    ∧ byteAt [0xfd, 0x2f, 0xb5, 0x1e] 3 = 0x1e
    ∧ byteAt [0xfd, 0x2f, 0xb5, 0x1e] 3 ≠ 0xfd
    ∧ old_frame_size [0xfd, 0x2f, 0xb5, 0x1e] = 0x1eb52ffd
    ∧ ¬ (old_frame_size [0xfd, 0x2f, 0xb5, 0x1e] > 0x80000000)
    ∧ ([0xfd, 0x2f, 0xb5, 0x1e, 0x28, 0xb5, 0x2f, 0xfd, 0, 7, 1, 2, 3] : Bytes).length ≥ 8
    ∧ skip_old_frame_header Toy.codec
        ⟨[0xfd, 0x2f, 0xb5, 0x1e, 0x28, 0xb5, 0x2f, 0xfd, 0, 7, 1, 2, 3],
          ZSTD_CONTENTSIZE_ERROR⟩ =
        (true, ⟨[0x28, 0xb5, 0x2f, 0xfd, 0, 7, 1, 2, 3], 0x1eb52ffd⟩,
          [.getFrameContentSize [0x28, 0xb5, 0x2f, 0xfd, 0, 7, 1, 2, 3]]) :=
  ⟨by decide, rfl, rfl, by decide, rfl, by decide, by decide, rfl⟩

/-! ## Round trip and legacy prefix -/

/-- A size a `bytes` object can have is none of the two special values of the inspection. -/
theorem ssize_ne_special (h : Host) (hbits : h.size_bits ≤ 64) (n : Nat)
    (hn : n ≤ h.PY_SSIZE_T_MAX) :
    n ≠ ZSTD_CONTENTSIZE_ERROR ∧ n ≠ ZSTD_CONTENTSIZE_UNKNOWN := by
  have h1 : 2 ^ (h.size_bits - 1) ≤ 2 ^ 63 := Nat.pow_le_pow_right (by decide) (by omega)
  unfold Host.PY_SSIZE_T_MAX at hn
  unfold ZSTD_CONTENTSIZE_ERROR ZSTD_CONTENTSIZE_UNKNOWN
  omega

/-- The outcome of `decompress_fixed` when the codec stores `content` and reports its
length, which is the declared size. -/
theorem decompress_fixed_of_decoded {σ : Type} (c : Codec σ) (h : Host) (src content : Bytes)
    (hN : content.length ≤ h.PY_SSIZE_T_MAX) (hmem : h.alloc content.length = true)
    (hdec : c.ZSTD_decompress content.length src = ⟨content.length, content⟩)
    (hok : c.ZSTD_isError content.length = false) :
    decompress_fixed c h src content.length =
      ⟨[.decompress content.length src], .ok content⟩ := by
  rw [decompress_fixed_of_alloc c h src content.length hN hmem, hdec]
  simp [hok, writeAt_zero_full]

/-- C1. Round trip: for every byte sequence `d` and every level that is 0 or lies in
`[ZSTD_CLEVEL_MIN, ZSTD_CLEVEL_MAX]`, with a codec that is correct on `d` (the one-shot
compressor stores a frame within the bound and reports its length, the inspection of that
frame gives `d.length`, and the one-shot decompressor turns the frame back into `d`) and a
host that serves the three allocations, `compress(d, level)` returns the frame and
`decompress` of it returns exactly `d`, so the same bytes and the same length, after one
inspection and one `ZSTD_decompress` call. -/
theorem round_trip {σ : Type} (c : Codec σ) (h : Host) (fuel : Nat) (d frame : Bytes)
    (level : Int)
    (hlevel : level = 0 ∨ (ZSTD_CLEVEL_MIN ≤ level ∧ level ≤ ZSTD_CLEVEL_MAX))
    (hbits : h.size_bits ≤ 64)
    (hd : d.length ≤ h.PY_SSIZE_T_MAX) (hmemd : h.alloc d.length = true)
    (hb : c.ZSTD_compressBound d.length ≤ h.PY_SSIZE_T_MAX)
    (hmemb : h.alloc (c.ZSTD_compressBound d.length) = true)
    (hmemf : h.alloc frame.length = true)
    (hcomp : c.ZSTD_compress (c.ZSTD_compressBound d.length) d
      (if level = 0 then ZSTD_CLEVEL_DEFAULT else level) = ⟨frame.length, frame⟩)
    (hfit : frame.length ≤ c.ZSTD_compressBound d.length)
    (hokc : c.ZSTD_isError frame.length = false)
    (hsize : c.ZSTD_getFrameContentSize frame = d.length)
    (hdec : c.ZSTD_decompress d.length frame = ⟨d.length, d⟩)
    (hokd : c.ZSTD_isError d.length = false) :
    compress c h d (some level) =
        ⟨[.compressBound d.length, .compress (c.ZSTD_compressBound d.length) d
            (if level = 0 then ZSTD_CLEVEL_DEFAULT else level)], .ok frame⟩
    ∧ decompress c h fuel frame =
        some ⟨[.getFrameContentSize frame, .decompress d.length frame], .ok d⟩ := by
  have hlv : ZSTD_CLEVEL_MIN ≤ (if level = 0 then ZSTD_CLEVEL_DEFAULT else level)
      ∧ (if level = 0 then ZSTD_CLEVEL_DEFAULT else level) ≤ ZSTD_CLEVEL_MAX := by
    rcases hlevel with h0 | ⟨h1, h2⟩
    · subst h0
      exact ⟨by decide, by decide⟩
    · by_cases h0 : level = 0
      · subst h0
        exact ⟨by decide, by decide⟩
      · rw [if_neg h0]
        exact ⟨h1, h2⟩
  have hspecial := ssize_ne_special h hbits d.length hd
  have hdecomp : decompress c h fuel frame =
      some ⟨[.getFrameContentSize frame, .decompress d.length frame], .ok d⟩ := by
    rw [decompress_of_frame c h fuel frame (by rw [hsize]; exact hspecial.1),
      if_neg (by rw [hsize]; exact hspecial.2), hsize,
      decompress_fixed_of_decoded c h frame d hd hmemd hdec hokd]
  refine ⟨?_, hdecomp⟩
  · rw [compress_of_valid_level c h d (some level)
      (if level = 0 then ZSTD_CLEVEL_DEFAULT else level) (by simp) hlv.1 hlv.2, hcomp]
    have hfl : frame.length ≤ h.PY_SSIZE_T_MAX := le_trans hfit hb
    simp only [PyBytes_FromStringAndSize, hb, hmemb, and_self, if_true, hokc,
      Bool.false_eq_true, if_false, PyBytes_Resize, hfl, hmemf, writeAt_length,
      List.length_replicate]
    rw [take_writeAt_zero _ _ hfit, Nat.sub_eq_zero_of_le hfit, List.replicate_zero,
      List.append_nil]

/-- C1 with the reference codec, on the input `1 2 3` at level 22, where the decoder stores
three bytes into a three-byte buffer, and on the empty input at level 0:
`decompress(compress(b""))` is `b""`. -/
theorem round_trip_witness :
    (compress Toy.codec Toy.host [1, 2, 3] (some 22) =
        ⟨[.compressBound 3, .compress 10 [1, 2, 3] 22],
          .ok [0x28, 0xb5, 0x2f, 0xfd, 1, 3, 7, 1, 2, 3]⟩
      ∧ decompress Toy.codec Toy.host 0 [0x28, 0xb5, 0x2f, 0xfd, 1, 3, 7, 1, 2, 3] =
        some ⟨[.getFrameContentSize [0x28, 0xb5, 0x2f, 0xfd, 1, 3, 7, 1, 2, 3],
          .decompress 3 [0x28, 0xb5, 0x2f, 0xfd, 1, 3, 7, 1, 2, 3]], .ok [1, 2, 3]⟩)
    ∧ (compress Toy.codec Toy.host [] (some 0) =
        ⟨[.compressBound 0, .compress 7 [] 3], .ok [0x28, 0xb5, 0x2f, 0xfd, 1, 0, 1]⟩
      ∧ decompress Toy.codec Toy.host 0 [0x28, 0xb5, 0x2f, 0xfd, 1, 0, 1] =
        some ⟨[.getFrameContentSize [0x28, 0xb5, 0x2f, 0xfd, 1, 0, 1],
          .decompress 0 [0x28, 0xb5, 0x2f, 0xfd, 1, 0, 1]], .ok []⟩) :=
  ⟨round_trip Toy.codec Toy.host 0 [1, 2, 3] [0x28, 0xb5, 0x2f, 0xfd, 1, 3, 7, 1, 2, 3] 22
      (Or.inr ⟨by decide, by decide⟩) (by decide) (Nat.le_of_ble_eq_true rfl) rfl
      (Nat.le_of_ble_eq_true rfl) rfl rfl rfl (by decide) rfl rfl rfl rfl,
    round_trip Toy.codec Toy.host 0 [] [0x28, 0xb5, 0x2f, 0xfd, 1, 0, 1] 0
      (Or.inl rfl) (by decide) (Nat.le_of_ble_eq_true rfl) rfl (Nat.le_of_ble_eq_true rfl) rfl
      rfl rfl (by decide) rfl rfl rfl rfl⟩

/-- Where the legacy prefix is handled: for every `L <= 0x80000000` that is at most
`PY_SSIZE_T_MAX` and whose buffer the host allocates, and every frame `f` that the codec
takes for a frame of size `L` or of unknown size and decodes to exactly the `L` bytes
`content`, whenever the inspection of the whole buffer `LE32(L) ++ f` reports an error,
`decompress(LE32(L) ++ f)` returns exactly `content`, after the two inspections and one
`ZSTD_decompress` call on `f`. -/
theorem legacy_prefix_handling {σ : Type} (c : Codec σ) (h : Host) (fuel : Nat) (L : Nat)
    (f content : Bytes)
    (hL : L ≤ 0x80000000)
    (hclen : content.length = L)
    (hflen : 4 ≤ f.length)
    (hwhole : c.ZSTD_getFrameContentSize (LE32 L ++ f) = ZSTD_CONTENTSIZE_ERROR)
    (hf : c.ZSTD_getFrameContentSize f = L
      ∨ c.ZSTD_getFrameContentSize f = ZSTD_CONTENTSIZE_UNKNOWN)
    (hdec : c.ZSTD_decompress L f = ⟨L, content⟩)
    (hok : c.ZSTD_isError L = false)
    (hN : L ≤ h.PY_SSIZE_T_MAX) (hmem : h.alloc L = true) :
    decompress c h fuel (LE32 L ++ f) =
      some ⟨[.getFrameContentSize (LE32 L ++ f), .getFrameContentSize f, .decompress L f],
        .ok content⟩ := by
  have hold : old_frame_size (LE32 L ++ f) = L := old_frame_size_LE32 L f (by omega)
  have hdrop : (LE32 L ++ f).drop 4 = f := by simp [LE32]
  have hlen : 8 ≤ (LE32 L ++ f).length := by
    simp only [LE32, List.length_append, List.length_cons, List.length_nil]
    omega
  rw [decompress_of_legacy c h fuel (LE32 L ++ f) hwhole hlen (by rw [hold]; exact hL)
    (by rw [hold, hdrop]; exact hf), hold, hdrop]
  subst hclen
  rw [decompress_fixed_of_decoded c h f content hN hmem hdec hok]
  rfl

/-- The legacy prefix on the reference codec: `L = 3` and a frame that records the size 3
and holds `1 2 3`. -/
theorem legacy_prefix_handling_example :
    decompress Toy.codec Toy.host 0 (LE32 3 ++ [0x28, 0xb5, 0x2f, 0xfd, 1, 3, 7, 1, 2, 3]) =
      some ⟨[.getFrameContentSize (LE32 3 ++ [0x28, 0xb5, 0x2f, 0xfd, 1, 3, 7, 1, 2, 3]),
          .getFrameContentSize [0x28, 0xb5, 0x2f, 0xfd, 1, 3, 7, 1, 2, 3],
          .decompress 3 [0x28, 0xb5, 0x2f, 0xfd, 1, 3, 7, 1, 2, 3]],
        .ok [1, 2, 3]⟩ :=
  legacy_prefix_handling Toy.codec Toy.host 0 3 [0x28, 0xb5, 0x2f, 0xfd, 1, 3, 7, 1, 2, 3]
    [1, 2, 3] (by decide) rfl (by decide) rfl (Or.inl rfl) rfl rfl (Nat.le_of_ble_eq_true rfl) rfl

/-! ## `decompress_stream`: where the output goes -/

theorem streamWrites_append (a b : List Call) :
    streamWrites (a ++ b) = streamWrites a ++ streamWrites b := by
  induction a with
  | nil => rfl
  | cons x xs ih => cases x <;> simp [streamWrites, ih]

theorem streamOffsets_append (a b : List Call) :
    streamOffsets (a ++ b) = streamOffsets a ++ streamOffsets b := by
  induction a with
  | nil => rfl
  | cons x xs ih => cases x <;> simp [streamOffsets, ih]

/-- A store that fits extends the written part of the buffer by the stored bytes. -/
theorem take_writeAt (dst : Bytes) (pos : Nat) (w : Bytes) (hfit : pos + w.length ≤ dst.length) :
    (writeAt dst pos w).take (pos + w.length) = dst.take pos ++ w := by
  have hpos : (dst.take pos).length = pos := by
    rw [List.length_take]
    omega
  unfold writeAt
  rw [List.take_take, Nat.min_eq_left hfit, List.take_append_of_le_length (by
    rw [List.length_append, hpos])]
  rw [List.take_of_length_le (by rw [List.length_append, hpos])]

/-- Growing a buffer keeps the bytes below the new size. -/
theorem take_PyBytes_Resize (h : Host) (dst out : Bytes) (n k : Nat)
    (hr : PyBytes_Resize h dst n = some out) (hk : k ≤ n) (hkl : k ≤ dst.length) :
    out.take k = dst.take k := by
  unfold PyBytes_Resize at hr
  split at hr
  · cases hr
    rw [List.take_append_of_le_length (by rw [List.length_take]; omega), List.take_take,
      Nat.min_eq_left hk]
  · cases hr

/-- The loop of `decompress_stream` appends: the calls it adds hand over the positions at
which their chunks land one after the other from `obuf.pos` on, and a successful result is
the part of the buffer written before, followed by these chunks. -/
theorem decompress_stream_loop_appends {σ : Type} (c : Codec σ) (h : Host) (src : Bytes)
    (hfit : StreamWritesFit c) (fuel : Nat) :
    ∀ (zds : σ) (dst : Bytes) (dst_size opos ipos : Nat) (calls : List Call) (o : Outcome),
      dst.length = dst_size → opos ≤ dst_size → dst_size ≤ h.PY_SSIZE_T_MAX →
      decompress_stream_loop c h src fuel zds dst dst_size opos ipos calls = some o →
      ∃ added, o.calls = calls ++ added
        ∧ streamOffsets added = runningOffsets (streamWrites added) opos
        ∧ ∀ out, o.result = .ok out →
            out = dst.take opos ++ (streamWrites added).flatten := by
  induction fuel with
  | zero =>
    intro zds dst dst_size opos ipos calls o _ _ _ ho
    simp [decompress_stream_loop] at ho
  | succ n ih =>
    intro zds dst dst_size opos ipos calls o hlen hpos hmax ho
    have hw := hfit zds dst_size opos src ipos
    have hwfit : opos + (c.ZSTD_decompressStream zds dst_size opos src ipos).written.length
        ≤ dst.length := by omega
    unfold decompress_stream_loop at ho
    dsimp only at ho
    split at ho
    · cases ho
      refine ⟨[Call.decompressStream dst_size opos src ipos
            (c.ZSTD_decompressStream zds dst_size opos src ipos).written, .freeDStream],
            by simp, rfl, ?_⟩
      intro out hout
      cases hout
    · split at ho
      · split at ho
        · cases ho
          refine ⟨[Call.decompressStream dst_size opos src ipos
            (c.ZSTD_decompressStream zds dst_size opos src ipos).written, .freeDStream],
            by simp, rfl, ?_⟩
          intro out hout
          cases hout
        · rename_i out0 hres
          cases ho
          refine ⟨[Call.decompressStream dst_size opos src ipos
            (c.ZSTD_decompressStream zds dst_size opos src ipos).written, .freeDStream],
            by simp, rfl, ?_⟩
          intro out hout
          cases hout
          have hl := PyBytes_Resize_length h _ _ _ hres
          have ht := take_PyBytes_Resize h _ _ _ _ hres (le_refl _)
            (by rw [writeAt_length]; exact hwfit)
          have e1 : List.take
              (opos + (c.ZSTD_decompressStream zds dst_size opos src ipos).written.length) out0
              = out0 := List.take_of_length_le (le_of_eq hl)
          rw [← e1, ht, take_writeAt dst opos _ hwfit]
          simp [streamWrites]
      · split at ho
        · cases ho
          refine ⟨[Call.decompressStream dst_size opos src ipos
            (c.ZSTD_decompressStream zds dst_size opos src ipos).written, .freeDStream],
            by simp, rfl, ?_⟩
          intro out hout
          cases hout
        · rename_i dst2 hres
          have hmod : dst_size * 2 % 2 ^ h.size_bits = dst_size * 2 := by
            apply Nat.mod_eq_of_lt
            have h1 := PY_SSIZE_T_MAX_lt h
            unfold Host.PY_SSIZE_T_MAX at hmax h1
            rcases Nat.eq_zero_or_pos h.size_bits with hz | hp
            · rw [hz] at hmax ⊢
              simp at hmax
              omega
            · have h2 : 2 ^ h.size_bits = 2 * 2 ^ (h.size_bits - 1) := by
                rw [← Nat.pow_succ']
                congr 1
                omega
              omega
          rw [hmod] at ho hres
          have hl2 := PyBytes_Resize_length h _ _ _ hres
          have hmax2 : dst_size * 2 ≤ h.PY_SSIZE_T_MAX := by
            unfold PyBytes_Resize at hres
            split at hres
            · rename_i hc
              exact hc.1
            · cases hres
          obtain ⟨added, hcalls, hoff, hout⟩ :=
            ih _ dst2 (dst_size * 2) _ _ _ o hl2 (by omega) hmax2 ho
          refine ⟨Call.decompressStream dst_size opos src ipos
            (c.ZSTD_decompressStream zds dst_size opos src ipos).written :: added,
            by rw [hcalls]; simp, ?_, ?_⟩
          · simp only [streamOffsets, streamWrites, runningOffsets, hoff]
          · intro out hres2
            rw [hout out hres2]
            have ht := take_PyBytes_Resize h _ _ _
              (opos + (c.ZSTD_decompressStream zds dst_size opos src ipos).written.length)
              hres (by omega) (by rw [writeAt_length]; exact hwfit)
            rw [ht, take_writeAt dst opos _ hwfit]
            simp [streamWrites]

/-- The loop of `decompress_stream` ends: the segment doubles in every pass that does not
return, and a segment above `PY_SSIZE_T_MAX` is refused. -/
theorem decompress_stream_loop_returns {σ : Type} (c : Codec σ) (h : Host) (src : Bytes)
    (fuel : Nat) :
    ∀ (zds : σ) (dst : Bytes) (dst_size opos ipos : Nat) (calls : List Call),
      dst_size ≤ h.PY_SSIZE_T_MAX → h.PY_SSIZE_T_MAX < dst_size * 2 ^ fuel →
      ∃ o, decompress_stream_loop c h src fuel zds dst dst_size opos ipos calls = some o := by
  induction fuel with
  | zero =>
    intro zds dst dst_size opos ipos calls hmax hbig
    simp only [Nat.pow_zero, Nat.mul_one] at hbig
    omega
  | succ n ih =>
    intro zds dst dst_size opos ipos calls hmax hbig
    unfold decompress_stream_loop
    dsimp only
    split
    · exact ⟨_, rfl⟩
    · split
      · split <;> exact ⟨_, rfl⟩
      · split
        · exact ⟨_, rfl⟩
        · rename_i dst2 hres
          have hmax2 : dst_size * 2 % 2 ^ h.size_bits ≤ h.PY_SSIZE_T_MAX := by
            unfold PyBytes_Resize at hres
            split at hres
            · rename_i hc
              exact hc.1
            · cases hres
          have hmod : dst_size * 2 % 2 ^ h.size_bits = dst_size * 2 := by
            apply Nat.mod_eq_of_lt
            have h1 := PY_SSIZE_T_MAX_lt h
            unfold Host.PY_SSIZE_T_MAX at hmax h1
            rcases Nat.eq_zero_or_pos h.size_bits with hz | hp
            · rw [hz] at hmax ⊢
              simp at hmax
              omega
            · have h2 : 2 ^ h.size_bits = 2 * 2 ^ (h.size_bits - 1) := by
                rw [← Nat.pow_succ']
                congr 1
                omega
              omega
          apply ih
          · exact hmax2
          · rw [hmod]
            rw [Nat.pow_succ] at hbig
            calc h.PY_SSIZE_T_MAX < dst_size * (2 ^ n * 2) := hbig
              _ = dst_size * 2 * 2 ^ n := by ring

/-- With as many passes allowed as `size_t` has bits, `decompress_stream` returns. -/
theorem decompress_stream_returns {σ : Type} (c : Codec σ) (h : Host) (src : Bytes)
    (hseg : 1 ≤ c.ZSTD_DStreamOutSize) :
    ∃ o, decompress_stream c h h.size_bits src = some o := by
  unfold decompress_stream
  split
  · exact ⟨_, rfl⟩
  · dsimp only
    split
    · exact ⟨_, rfl⟩
    · rename_i dst hdst
      have hmax : c.ZSTD_DStreamOutSize ≤ h.PY_SSIZE_T_MAX := by
        unfold PyBytes_FromStringAndSize at hdst
        split at hdst
        · rename_i hc
          exact hc.1
        · cases hdst
      apply decompress_stream_loop_returns c h src h.size_bits _ _ _ _ _ _ hmax
      calc h.PY_SSIZE_T_MAX < 2 ^ h.size_bits := PY_SSIZE_T_MAX_lt h
        _ = 1 * 2 ^ h.size_bits := (Nat.one_mul _).symm
        _ ≤ c.ZSTD_DStreamOutSize * 2 ^ h.size_bits := Nat.mul_le_mul_right _ hseg

/-- C8, as amended.  `obuf.pos` is set to 0 once, before the loop: with a codec that stays
within the segment it is given and whose default segment is not empty, `decompress_stream`
returns once `size_bits` passes are allowed; the first pass is handed position 0 and every
later pass the position where the previous pass stopped, so each pass appends; doubling the
segment keeps the bytes already stored; and a successful result consists of the bytes stored
by all passes, in order. -/
theorem decompress_stream_accumulates {σ : Type} (c : Codec σ) (h : Host) (src : Bytes)
    (hfit : StreamWritesFit c) (hseg : 1 ≤ c.ZSTD_DStreamOutSize) :
    (∃ o, decompress_stream c h h.size_bits src = some o)
    ∧ ∀ fuel o, decompress_stream c h fuel src = some o →
        streamOffsets o.calls = runningOffsets (streamWrites o.calls) 0
        ∧ ∀ out, o.result = .ok out → out = (streamWrites o.calls).flatten := by
  refine ⟨decompress_stream_returns c h src hseg, ?_⟩
  intro fuel o ho
  unfold decompress_stream at ho
  split at ho
  · cases ho
    exact ⟨rfl, fun out hout => by cases hout⟩
  · dsimp only at ho
    split at ho
    · cases ho
      exact ⟨rfl, fun out hout => by cases hout⟩
    · rename_i dst hdst
      have hl := PyBytes_FromStringAndSize_length h _ _ hdst
      have hmax : c.ZSTD_DStreamOutSize ≤ h.PY_SSIZE_T_MAX := by
        unfold PyBytes_FromStringAndSize at hdst
        split at hdst
        · rename_i hc
          exact hc.1
        · cases hdst
      obtain ⟨added, hcalls, hoff, hout⟩ :=
        decompress_stream_loop_appends c h src hfit fuel _ dst _ 0 0 _ o hl (Nat.zero_le _)
          hmax ho
      rw [hcalls]
      refine ⟨?_, ?_⟩
      · simpa [streamOffsets, streamWrites] using hoff
      · intro out hres
        rw [hout out hres]
        simp [streamWrites]

/-! ## The reference codec keeps to its segment -/

theorem Toy.streamLoop_written (src : Bytes) (outSize : Nat) (fuel : Nat) :
    ∀ (z : Toy.DStream) (opos ipos : Nat) (w : Bytes),
      (Toy.streamLoop src outSize fuel z opos ipos w).written.length
        ≤ w.length + (outSize - opos) := by
  induction fuel with
  | zero =>
    intro z opos ipos w
    simp [Toy.streamLoop]
  | succ n ih =>
    intro z opos ipos w
    unfold Toy.streamLoop
    split
    · dsimp only
      split
      · simp only [List.length_append, List.length_take]
        omega
      · refine le_trans (ih _ _ _ _) ?_
        simp only [List.length_append, List.length_take]
        omega
    · split
      · simp
      · split
        · split
          · simp
          · exact ih _ _ _ _
        · split
          · simp
          · dsimp only
            split
            · simp
            · exact ih _ _ _ _

theorem Toy.streamWritesFit : StreamWritesFit Toy.codec := by
  intro zds outSize outPos src inPos
  have := Toy.streamLoop_written src outSize (2 * src.length + 4) zds outPos inPos []
  simpa [Toy.codec, Toy.decompressStream] using this

/-! ## C8 on a concrete frame -/

/-- C8, as amended, on `Toy.frame16`: three passes, handed the positions 0, 4 and 8, store
4, 4 and 8 bytes, and the result is all 16 bytes. -/
theorem decompress_stream_accumulates_witness :
    1 ≤ Toy.codec.ZSTD_DStreamOutSize
    ∧ decompress_stream Toy.codec Toy.host 3 Toy.frame16 = some Toy.outcome16
    ∧ Toy.outcome16.result = .ok [1, 2, 3, 4, 5, 6, 7, 8, 9, 10, 11, 12, 13, 14, 15, 16]
    ∧ streamOffsets Toy.outcome16.calls = runningOffsets (streamWrites Toy.outcome16.calls) 0
    ∧ [1, 2, 3, 4, 5, 6, 7, 8, 9, 10, 11, 12, 13, 14, 15, 16]
        = (streamWrites Toy.outcome16.calls).flatten :=
  ⟨by decide, rfl, rfl,
    ((decompress_stream_accumulates Toy.codec Toy.host Toy.frame16 Toy.streamWritesFit
      (by decide)).2 3 Toy.outcome16 rfl).1,
    ((decompress_stream_accumulates Toy.codec Toy.host Toy.frame16 Toy.streamWritesFit
      (by decide)).2 3 Toy.outcome16 rfl).2 _ rfl⟩

/-- C8 fails on `Toy.frame16`: the second and third pass are handed the positions 4 and 8,
not 0; the bytes of the earlier passes survive the two doublings; and the result, 16 bytes,
is not the 8 bytes stored by the final pass. -/
theorem stream_final_pass_only_counterexample :
    decompress_stream Toy.codec Toy.host 3 Toy.frame16 = some Toy.outcome16
    ∧ Toy.outcome16.result = .ok [1, 2, 3, 4, 5, 6, 7, 8, 9, 10, 11, 12, 13, 14, 15, 16]
    ∧ streamOffsets Toy.outcome16.calls = [0, 4, 8]
    ∧ streamOffsets Toy.outcome16.calls ≠ [0, 0, 0]
    ∧ streamWrites Toy.outcome16.calls
        = [[1, 2, 3, 4], [5, 6, 7, 8], [9, 10, 11, 12, 13, 14, 15, 16]]
    ∧ (streamWrites Toy.outcome16.calls).getLast? = some [9, 10, 11, 12, 13, 14, 15, 16]
    ∧ Toy.outcome16.result ≠ .ok [9, 10, 11, 12, 13, 14, 15, 16] :=
  ⟨rfl, rfl, rfl, by decide, rfl, rfl, by decide⟩

/-! ## The legacy length that is a magic number, and the guards of `decompress_fixed` -/

theorem Toy.decode_frameRun :
    Toy.decode Toy.frameRun = some (List.replicate 0x1eb52ffd 0) := rfl

theorem Toy.decompress_frameRun :
    Toy.decompress 0x1eb52ffd Toy.frameRun
      = ⟨0x1eb52ffd, List.replicate 0x1eb52ffd 0⟩ := by
  unfold Toy.decompress
  rw [Toy.decode_frameRun]
  simp only [List.length_replicate, lt_self_iff_false, if_false]

/-- C3.  The code breaks the claim for `L = 0x1EB52FFD`, whose encoding `FD 2F B5 1E` is the
magic number of format 0.1, with a codec that understands format 0.1: `Toy.frameRun` is a
frame of the standard format that records the size `L` and decodes to exactly `L` zero
bytes, but the inspection of `LE32(L) ++ frame` does not report an error, so the legacy
check of line 348 is never made, the buffer goes to the streaming decoder as a frame of
unknown size, and `decompress` raises the codec's error instead of returning the `L`
bytes.  This is the confusion of a legacy length with a magic number that the comment of
lines 136-139 rules out. -/
theorem legacy_prefix_not_skipped_on_format01_magic :
    (0x1eb52ffd : Nat) ≤ 0x80000000
    ∧ LE32 0x1eb52ffd = [0xfd, 0x2f, 0xb5, 0x1e]
    ∧ (legacy_compressions.getD 0 []).take 4 = LE32 0x1eb52ffd
    ∧ Toy.legacyCodec.ZSTD_getFrameContentSize Toy.frameRun = 0x1eb52ffd
    ∧ Toy.legacyCodec.ZSTD_decompress 0x1eb52ffd Toy.frameRun
        = ⟨0x1eb52ffd, List.replicate 0x1eb52ffd 0⟩
    ∧ (List.replicate 0x1eb52ffd 0 : Bytes).length = 0x1eb52ffd
    ∧ Toy.legacyCodec.ZSTD_isError 0x1eb52ffd = false
    ∧ Toy.legacyCodec.ZSTD_getFrameContentSize (LE32 0x1eb52ffd ++ Toy.frameRun)
        = ZSTD_CONTENTSIZE_UNKNOWN
    ∧ decompress Toy.legacyCodec Toy.host 10 (LE32 0x1eb52ffd ++ Toy.frameRun) =
        some ⟨[.getFrameContentSize (LE32 0x1eb52ffd ++ Toy.frameRun), .createDStream,
            .DStreamOutSize,
            .decompressStream 4 0 (LE32 0x1eb52ffd ++ Toy.frameRun) 0 [], .freeDStream],
          .raise ⟨.ZstdError, "Decompression error: %s",
            [.str "Unknown frame descriptor"]⟩⟩ :=
  ⟨by decide, rfl, rfl, rfl,
    by
      have hf : Toy.legacyCodec.ZSTD_decompress = Toy.decompress := rfl
      rw [hf]
      exact Toy.decompress_frameRun,
    List.length_replicate _ _, rfl, rfl, rfl⟩

/-- C5 fails in two ways.  With the declared size `N = 2 ^ 63` on a 64-bit host and a
payload that decodes to 3 bytes, so `N - k` bytes for `k = 2 ^ 63 - 3`, `decompress_fixed`
stops at the check of line 239 and raises "too large", not the length mismatch, without
calling the codec.  With `N = 2` and the same payload, so `N + k` bytes for `k = 1`, the
codec cannot store 3 bytes in the 2-byte buffer and reports an error, and `decompress_fixed`
raises the codec failure, not the length mismatch. -/
theorem decompress_fixed_length_mismatch_counterexample :
    Toy.decode [0x28, 0xb5, 0x2f, 0xfd, 0, 7, 1, 2, 3] = some [1, 2, 3]
    ∧ 0 < 2 ^ 63 - 3 ∧ ([1, 2, 3] : Bytes).length + (2 ^ 63 - 3) = 2 ^ 63
    ∧ decompress_fixed Toy.codec Toy.host [0x28, 0xb5, 0x2f, 0xfd, 0, 7, 1, 2, 3] (2 ^ 63) =
        ⟨[], .raise ⟨.ZstdError, "Decompressed data is too large for a bytes object", []⟩⟩
    ∧ ([1, 2, 3] : Bytes).length = 2 + 1
    ∧ decompress_fixed Toy.codec Toy.host [0x28, 0xb5, 0x2f, 0xfd, 0, 7, 1, 2, 3] 2 =
        ⟨[.decompress 2 [0x28, 0xb5, 0x2f, 0xfd, 0, 7, 1, 2, 3]],
          .raise ⟨.ZstdError, "Decompression error: %s",
            [.str "Destination buffer is too small"]⟩⟩ :=
  ⟨rfl, by decide, by decide, rfl, rfl, rfl⟩

/-! ## `decompress_stream` on a frame of unknown size -/

end Zstd
